import Mathlib

/-!
Verification development for the pdmInfra repository.

Shallow embedding of the two core components:
* the conversation-history state machine (`src/ai/LLM_inference/openai_tools.py`,
  class `openai_message_history`);
* the schema-translation engine (`src/pdmInfra/ai/json_schema.py`,
  classes `Field`, `structuredOutputBaseModel`, `functionCallingBaseModel`).

Python dicts are modelled as ordered association lists inside a `Json` value
type (insertion order preserved, as in CPython).  Raising an exception is
modelled as returning an error: `Except String _` for pure computations, and
an `Option String × state` pair for the history methods, whose partially
mutated state must stay observable after an uncaught exception.
-/

set_option maxHeartbeats 1000000

namespace PdmInfra

/-- JSON-like values, standing in for Python dict/list/str/num/bool/None. -/
inductive Json : Type where
  | null : Json
  | bool : Bool → Json
  | num : Int → Json
  | str : String → Json
  | arr : List Json → Json
  | obj : List (String × Json) → Json
deriving Repr

mutual
/-- Model of Python `json.dumps` (default separators), used by the history
methods when they serialise tool arguments/content. -/
def json_dumps : Json → String
  | .null => "null"
  | .bool true => "true"
  | .bool false => "false"
  | .num n => toString n
  | .str s => "\"" ++ s ++ "\""
  | .arr xs => "[" ++ json_dumps_list xs ++ "]"
  | .obj kvs => "\x7b" ++ json_dumps_obj kvs ++ "\x7d"

def json_dumps_list : List Json → String
  | [] => ""
  | [x] => json_dumps x
  | x :: y :: xs => json_dumps x ++ ", " ++ json_dumps_list (y :: xs)

def json_dumps_obj : List (String × Json) → String
  | [] => ""
  | [(k, v)] => "\"" ++ k ++ "\": " ++ json_dumps v
  | (k, v) :: kv :: kvs => "\"" ++ k ++ "\": " ++ json_dumps v ++ ", " ++ json_dumps_obj (kv :: kvs)
end

/-- Dict lookup on a `Json.obj` (first binding wins, like a Python dict
whose keys are unique). -/
def Json.get? (j : Json) (k : String) : Option Json :=
  match j with
  | .obj kvs => (kvs.find? (fun kv => kv.1 == k)).map (fun kv => kv.2)
  | _ => none

/-- Python `d[k]`: `KeyError` when the key is absent. -/
def jGet (j : Json) (k : String) : Except String Json :=
  match j.get? k with
  | some v => .ok v
  | none => .error ("KeyError: " ++ k)

/-- Iterated dict lookup along a path of keys. -/
def jpath (j : Json) : List String → Option Json
  | [] => some j
  | k :: ks =>
    match j.get? k with
    | some v => jpath v ks
    | none => none

/-! ## Conversation history (`openai_message_history`)

A turn is one entry of `self.chat_history`.  The class only ever appends
dicts of the four shapes below, so the list of turns is modelled as an
inductive. -/

/-- One entry of `chat_history`.  `toolCalls` is the dict with role
`assistant`, content `None` and a `tool_calls` list, built by
`add_function_call`; each stored call is `(id, name, dumped_arguments)`. -/
inductive Turn : Type where
  | user (content : String)
  | assistant (content : String)
  | toolCalls (calls : List (String × String × String))
  | tool (content : String) (tool_call_id : String)
deriving Repr, DecidableEq

/-- The `role` key of the stored dict. -/
def Turn.role : Turn → String
  | .user _ => "user"
  | .assistant _ => "assistant"
  | .toolCalls _ => "assistant"
  | .tool _ _ => "tool"

/-- Whether the stored dict carries a `tool_calls` key
(`self.chat_history[-1]['tool_calls']` raises `KeyError` otherwise). -/
def Turn.hasToolCalls : Turn → Bool
  | .toolCalls _ => true
  | _ => false

/-- Result of a history method: the raised error (if any) and the final
`chat_history`.  Mutation that happened before an uncaught exception is
kept, exactly as on the Python object. -/
abbrev HistResult := Option String × List Turn

/-- `openai_message_history.add_user_message` (openai_tools.py:8-14). -/
def add_user_message (h : List Turn) (msg : String) : HistResult :=
  match h.getLast? with
  | none => (none, h ++ [Turn.user msg])
  | some t =>
    if t.role == "assistant" then (none, h ++ [Turn.user msg])
    else (some "User message must be added after assistant message or before the first assistant message.", h)

/-- `openai_message_history.add_assistant_message` (openai_tools.py:16-22). -/
def add_assistant_message (h : List Turn) (msg : String) : HistResult :=
  match h.getLast? with
  | none => (none, h ++ [Turn.assistant msg])
  | some t =>
    if t.role != "assistant" then (none, h ++ [Turn.assistant msg])
    else (some "Assistant message must not be added after another assistant message.", h)

/-- An element of the `function_call` list passed to `add_function_call`:
a dict that may or may not carry each of the keys `id`, `name`,
`arguments`. -/
structure FCall : Type where
  id : Option String
  name : Option String
  arguments : Option Json
deriving Repr

/-- The list comprehension in `add_function_call` (openai_tools.py:28); it is
fully evaluated before `append` is called, so a `KeyError` aborts with the
history untouched. -/
def extractCalls : List FCall → Except String (List (String × String × String))
  | [] => .ok []
  | c :: rest =>
    match c.id with
    | none => .error "KeyError: id"
    | some i =>
      match c.name with
      | none => .error "KeyError: name"
      | some nm =>
        match c.arguments with
        | none => .error "KeyError: arguments"
        | some a =>
          match extractCalls rest with
          | .error e => .error e
          | .ok tl => .ok ((i, nm, json_dumps a) :: tl)

/-- `openai_message_history.add_function_call` (openai_tools.py:24-30). -/
def add_function_call (h : List Turn) (function_call : List FCall) : HistResult :=
  match h.getLast? with
  | none => (some "Function call cannot be the first message.", h)
  | some t =>
    if t.role == "user" then
      match extractCalls function_call with
      | .ok stored => (none, h ++ [Turn.toolCalls stored])
      | .error e => (some e, h)
    else (some "Function call must be added after user message.", h)

/-- An element of the `tool_responses` list: a dict that may or may not
carry each of the keys `id`, `arguments`, `content`. -/
structure TResp : Type where
  id : Option String
  arguments : Option Json
  content : Option Json
deriving Repr

/-- The validation loop of `add_tool_responses` (openai_tools.py:35-39):
every entry must carry `id` and `arguments` (the latter reported as the
"content" of the response). -/
def validate_tool_responses : List TResp → Option String
  | [] => none
  | r :: rest =>
    match r.id with
    | none => some "Tool responses must have id."
    | some i =>
      match r.arguments with
      | none => some ("Tool response must have content. Content missing for tool call id: " ++ i)
      | some _ => validate_tool_responses rest

/-- The append loop of the `role == 'tool'` branch (openai_tools.py:58-66).
It reads `response['content']` — a key the validation loop never checked —
so a missing `content` raises `KeyError` mid-loop, keeping the entries
already appended. -/
def toolBranchLoop (h : List Turn) : List TResp → HistResult
  | [] => (none, h)
  | r :: rest =>
    match r.content with
    | none => (some "KeyError: content", h)
    | some c => toolBranchLoop (h ++ [Turn.tool (json_dumps c) (r.id.getD "")]) rest

/-- `openai_message_history.add_tool_responses` (openai_tools.py:32-69).
The `role == 'assistant'` branch runs inside `try/except`: a missing
`tool_calls` key is caught and re-raised as the sequencing error; once the
key is present the loop uses the validated `arguments` key and cannot
fail. -/
def add_tool_responses (h : List Turn) (tool_responses : List TResp) : HistResult :=
  match validate_tool_responses tool_responses with
  | some e => (some e, h)
  | none =>
    match h.getLast? with
    | none => (some "Tool response cannot be the first message.", h)
    | some t =>
      if t.role == "assistant" then
        if t.hasToolCalls then
          (none, h ++ tool_responses.map
            (fun r => Turn.tool (json_dumps (r.arguments.getD .null)) (r.id.getD "")))
        else (some "Tool response must be added after function call.", h)
      else if t.role == "tool" then
        toolBranchLoop h tool_responses
      else (some "Tool response must be added after assistant message or other tool responses.", h)

/-! ## Schema translation engine (`json_schema.py`)

A schema model is the class-level data the engine reads: the class name,
its docstring, and the `Field` attributes in declaration (dict) order.
`Field` mirrors `json_schema.Field`; absent constructor arguments are
`none` / `[]`.  Python truthiness of the string-valued attributes
(`None` and `""` both falsy) is made explicit. -/

mutual
/-- A `structuredOutputBaseModel` / `functionCallingBaseModel` subclass:
`__name__`, `__doc__` (empty string for `None`), and its `Field`-valued
class attributes in declaration order. -/
inductive SchemaModel : Type where
  | mk (name : String) (doc : String) (fields : List (String × Field)) : SchemaModel

/-- `json_schema.Field`: description, field_type, optional, enum,
children, array_type. -/
inductive Field : Type where
  | mk (description : Option String) (field_type : String) (optional : Bool)
       (enum : List Json) (children : Option SchemaModel) (array_type : Option String) : Field
end

def SchemaModel.name : SchemaModel → String
  | .mk n _ _ => n

def SchemaModel.doc : SchemaModel → String
  | .mk _ d _ => d

def SchemaModel.fields : SchemaModel → List (String × Field)
  | .mk _ _ fs => fs

def Field.description : Field → Option String
  | .mk d _ _ _ _ _ => d

def Field.field_type : Field → String
  | .mk _ t _ _ _ _ => t

def Field.optional : Field → Bool
  | .mk _ _ o _ _ _ => o

def Field.enum : Field → List Json
  | .mk _ _ _ e _ _ => e

def Field.children : Field → Option SchemaModel
  | .mk _ _ _ _ c _ => c

def Field.array_type : Field → Option String
  | .mk _ _ _ _ _ a => a

/-- Python truthiness of an optional string (`None` and `""` are falsy). -/
def pyTruthy : Option String → Bool
  | none => false
  | some s => !s.isEmpty

/-- Python `str.capitalize()`: first character upper-cased, the rest
lower-cased (used for Mistral property titles, json_schema.py:108). -/
def py_capitalize (s : String) : String :=
  (s.take 1).toUpper ++ (s.drop 1).toLower

/-- The base property dict built for one field by
`generate_structured_output` (json_schema.py:104-119), with the final
`type` value passed in: the later optional-widening overwrites the `type`
key in place, so its position (first) is unchanged. -/
def soBaseProps (provider n : String) (description : Option String) (tFinal : Json)
    (enum : List Json) : List (String × Json) :=
  let base : List (String × Json) :=
    if provider == "mistral" then [("type", tFinal), ("title", Json.str (py_capitalize n))]
    else [("type", tFinal)]
  let base :=
    if pyTruthy description && provider != "mistral" then
      base ++ [("description", Json.str (description.getD ""))]
    else base
  if enum.isEmpty then base else base ++ [("enum", Json.arr enum)]

/-- Whether `generate_structured_output` appends the field to `required`
(json_schema.py:121-137): optional fields only for openai/anthropic
(nullable-but-required), non-optional fields for every provider. -/
def soRequired (provider : String) (f : Field) : Bool :=
  if f.optional then provider == "openai" || provider == "anthropic" else true

/-- The `required` list accumulated over the fields, in declaration
order. -/
def soReq (provider : String) (fields : List (String × Field)) : List String :=
  (fields.filter (fun nf => soRequired provider nf.2)).map Prod.fst

/-- The widened-or-plain `type` value of a property in the output-schema
flavor (json_schema.py:122-124): optional fields are widened to
`[field_type, "null"]` for openai and anthropic only. -/
def soTFinal (provider : String) (f : Field) : Json :=
  if f.optional && (provider == "openai" || provider == "anthropic") then
    Json.arr [Json.str f.field_type, Json.str "null"]
  else Json.str f.field_type

/-- The inner schema object of the output-schema envelope — the part the
recursive calls extract (json_schema.py:53-58, 68-74, 81-85, 93-98). -/
def soInner (provider name : String) (props : List (String × Json)) (req : List String) : Json :=
  if provider == "mistral" then
    Json.obj [("title", Json.str name), ("type", Json.str "object"),
      ("properties", Json.obj props), ("additionalProperties", Json.bool false),
      ("required", Json.arr (req.map Json.str))]
  else if provider == "anthropic" then
    Json.obj [("type", Json.str "object"), ("properties", Json.obj props),
      ("required", Json.arr (req.map Json.str))]
  else
    Json.obj [("type", Json.str "object"), ("properties", Json.obj props),
      ("additionalProperties", Json.bool false), ("required", Json.arr (req.map Json.str))]

/-- The output-schema envelope around the inner schema
(json_schema.py:46-100).  The openai literal writes `strict: True` twice;
a Python dict literal keeps the first position and the last value, hence a
single `strict` entry. -/
def soWrap (provider name doc : String) (inner : Json) : Json :=
  if provider == "openai" then
    Json.obj [("type", Json.str "json_schema"),
      ("json_schema", Json.obj [("name", Json.str name), ("description", Json.str doc.trim),
        ("strict", Json.bool true), ("schema", inner)])]
  else if provider == "mistral" then
    Json.obj [("type", Json.str "json_schema"),
      ("json_schema", Json.obj [("name", Json.str name.toLower), ("strict", Json.bool true),
        ("schema", inner)])]
  else if provider == "anthropic" then
    Json.obj [("name", Json.str name), ("description", Json.str doc.trim), ("input_schema", inner)]
  else
    Json.obj [("type", Json.str "function"),
      ("function", Json.obj [("name", Json.str name), ("description", Json.str doc.trim),
        ("parameters", inner)])]

mutual
/-- `structuredOutputBaseModel.generate_structured_output`
(json_schema.py:40-184). -/
def generate_structured_output (provider : String) : SchemaModel → Except String Json
  | .mk name doc fields =>
    if provider == "openai" || provider == "anthropic" || provider == "mistral"
        || provider == "groq" then
      match soProps provider fields with
      | .ok props =>
        .ok (soWrap provider name doc (soInner provider name props (soReq provider fields)))
      | .error e => .error e
    else .error "Provider must be one of: openai, anthropic, mistral, groq"

/-- The per-field loop of `generate_structured_output`
(json_schema.py:102-182), collecting the `properties` entries in
declaration order; the first exception aborts the whole render. -/
def soProps (provider : String) : List (String × Field) → Except String (List (String × Json))
  | [] => .ok []
  | (n, f) :: rest =>
    match soFieldProp provider n f with
    | .error e => .error e
    | .ok j =>
      match soProps provider rest with
      | .error e => .error e
      | .ok tl => .ok ((n, j) :: tl)

/-- One field's final property document in the output-schema flavor
(json_schema.py:104-174): base dict, optional widening, then the
array/object handling.  For arrays of models and for object fields the
recursive render happens for every provider, but its result is nested /
substituted only for openai, mistral and anthropic — the groq branch is
absent in the source, so groq keeps the base dict unchanged. -/
def soFieldProp (provider n : String) : Field → Except String Json
  | .mk description field_type optional enum children array_type =>
    let tFinal := soTFinal provider (.mk description field_type optional enum children array_type)
    let base := soBaseProps provider n description tFinal enum
    if field_type == "array" then
      if children.isSome && pyTruthy array_type then
        .error "Cannot have both children and array_type"
      else if !children.isSome && !pyTruthy array_type then
        .error "Array type must have either children or array_type"
      else
        match children with
        | some c =>
          match generate_structured_output provider c with
          | .error e => .error e
          | .ok nested =>
            if provider == "openai" || provider == "mistral" then
              match jGet nested "json_schema" with
              | .error e => .error e
              | .ok js =>
                match jGet js "schema" with
                | .error e => .error e
                | .ok sub => .ok (Json.obj (base ++ [("items", sub)]))
            else if provider == "anthropic" then
              match jGet nested "input_schema" with
              | .error e => .error e
              | .ok sub => .ok (Json.obj (base ++ [("items", sub)]))
            else .ok (Json.obj base)
        | none => .ok (Json.obj (base ++ [("items", Json.obj [("type", Json.str (array_type.getD ""))])]))
    else if field_type == "object" then
      match children with
      | none => .error "Object children must be a subclass of structuredOutputBaseModel"
      | some c =>
        match generate_structured_output provider c with
        | .error e => .error e
        | .ok nested =>
          if provider == "openai" || provider == "mistral" then
            match jGet nested "json_schema" with
            | .error e => .error e
            | .ok js => jGet js "schema"
          else if provider == "anthropic" then jGet nested "input_schema"
          else .ok (Json.obj base)
    else .ok (Json.obj base)
end

/-- The base property dict built for one field by
`generate_function_tool` (json_schema.py:250-256): `description` is always
present (possibly `None`, i.e. JSON null).  As above, the optional
widening overwrites `type` in place, so the final `type` value is passed
in. -/
def fcBaseProps (description : Option String) (tFinal : Json) (enum : List Json) :
    List (String × Json) :=
  let base : List (String × Json) :=
    [("type", tFinal),
     ("description", match description with | some s => Json.str s | none => Json.null)]
  if enum.isEmpty then base else base ++ [("enum", Json.arr enum)]

/-- The `type` value of a tool-flavor property (json_schema.py:258-259):
optional fields are widened to `[field_type, "null"]` for every
provider. -/
def fcTFinal (f : Field) : Json :=
  if f.optional then Json.arr [Json.str f.field_type, Json.str "null"]
  else Json.str f.field_type

/-- The tool-flavor `required` list (json_schema.py:298-305): non-optional
fields only, for every provider. -/
def fcReq (fields : List (String × Field)) : List String :=
  (fields.filter (fun nf => !nf.2.optional)).map Prod.fst

/-- The inner parameters object of the tool envelope — the part the
recursive calls extract (json_schema.py:203-208, 215-219, 227-231,
240-244).  Only openai carries `additionalProperties: false`. -/
def fcInner (provider : String) (props : List (String × Json)) (req : List String) : Json :=
  if provider == "openai" then
    Json.obj [("type", Json.str "object"), ("properties", Json.obj props),
      ("additionalProperties", Json.bool false), ("required", Json.arr (req.map Json.str))]
  else
    Json.obj [("type", Json.str "object"), ("properties", Json.obj props),
      ("required", Json.arr (req.map Json.str))]

/-- The tool envelope (json_schema.py:197-246): anthropic is flat with
`input_schema`, the other three wrap `function.parameters`. -/
def fcWrap (provider name doc : String) (inner : Json) : Json :=
  if provider == "anthropic" then
    Json.obj [("name", Json.str name), ("description", Json.str doc.trim), ("input_schema", inner)]
  else
    Json.obj [("type", Json.str "function"),
      ("function", Json.obj [("name", Json.str name), ("description", Json.str doc.trim),
        ("parameters", inner)])]

mutual
/-- `functionCallingBaseModel.generate_function_tool`
(json_schema.py:191-315). -/
def generate_function_tool (provider : String) : SchemaModel → Except String Json
  | .mk name doc fields =>
    if provider == "openai" || provider == "anthropic" || provider == "mistral"
        || provider == "groq" then
      match fcProps provider fields with
      | .ok props => .ok (fcWrap provider name doc (fcInner provider props (fcReq fields)))
      | .error e => .error e
    else .error "Provider must be one of: openai, anthropic, mistral, groq"

/-- The per-field loop of `generate_function_tool`
(json_schema.py:248-313). -/
def fcProps (provider : String) : List (String × Field) → Except String (List (String × Json))
  | [] => .ok []
  | (n, f) :: rest =>
    match fcFieldProp provider n f with
    | .error e => .error e
    | .ok j =>
      match fcProps provider rest with
      | .error e => .error e
      | .ok tl => .ok ((n, j) :: tl)

/-- One field's final property document in the tool flavor
(json_schema.py:250-296).  As in the output flavor, the recursive render
of `children` runs for every provider but its result is used only for
openai, mistral and anthropic; the groq branch is absent in the source. -/
def fcFieldProp (provider _n : String) : Field → Except String Json
  | .mk description field_type optional enum children array_type =>
    let tFinal := fcTFinal (.mk description field_type optional enum children array_type)
    let base := fcBaseProps description tFinal enum
    if field_type == "array" then
      if children.isSome && pyTruthy array_type then
        .error "Cannot have both children and array_type"
      else if !children.isSome && !pyTruthy array_type then
        .error "Array type must have either children or array_type"
      else
        match children with
        | some c =>
          match generate_function_tool provider c with
          | .error e => .error e
          | .ok nested =>
            if provider == "openai" || provider == "mistral" then
              match jGet nested "function" with
              | .error e => .error e
              | .ok fn =>
                match jGet fn "parameters" with
                | .error e => .error e
                | .ok sub => .ok (Json.obj (base ++ [("items", sub)]))
            else if provider == "anthropic" then
              match jGet nested "input_schema" with
              | .error e => .error e
              | .ok sub => .ok (Json.obj (base ++ [("items", sub)]))
            else .ok (Json.obj base)
        | none => .ok (Json.obj (base ++ [("items", Json.obj [("type", Json.str (array_type.getD ""))])]))
    else if field_type == "object" then
      match children with
      | none => .error "Object children must be a subclass of functionCallingBaseModel"
      | some c =>
        match generate_function_tool provider c with
        | .error e => .error e
        | .ok nested =>
          if provider == "openai" || provider == "mistral" then
            match jGet nested "function" with
            | .error e => .error e
            | .ok fn => jGet fn "parameters"
          else if provider == "anthropic" then jGet nested "input_schema"
          else .ok (Json.obj base)
    else .ok (Json.obj base)
end

/-- Where the inner schema of an output-flavor envelope lives, per
provider (the envelope shapes of json_schema.py:46-100). -/
def soSchemaPath (provider : String) : List String :=
  if provider == "anthropic" then ["input_schema"]
  else if provider == "groq" then ["function", "parameters"]
  else ["json_schema", "schema"]

/-- Where the parameters object of a tool-flavor envelope lives, per
provider (the envelope shapes of json_schema.py:197-246). -/
def fcParamsPath (provider : String) : List String :=
  if provider == "anthropic" then ["input_schema"] else ["function", "parameters"]

/-! ## Concrete example models used in counterexamples and witnesses -/

/-- A single optional string field with a description. -/
def noteField : Field := .mk (some "a note") "string" true [] none none

/-- A one-field model carrying `noteField`. -/
def exToolOpt : SchemaModel := .mk "SaveNote" "Save a note" [("note", noteField)]

/-- A nested model with one plain string field. -/
def exAddress : SchemaModel := .mk "Address" "" [("city", .mk none "string" false [] none none)]

/-- An optional object field referencing `exAddress`. -/
def addressField : Field := .mk (some "the address") "object" true [] (some exAddress) none

/-- A model with an optional object field. -/
def exProfile : SchemaModel := .mk "Profile" "" [("address", addressField)]

/-- An array-of-models field referencing `exAddress`. -/
def itemsField : Field := .mk none "array" false [] (some exAddress) none

/-- A model with an array-of-models field. -/
def exListModel : SchemaModel := .mk "Lst" "" [("xs", itemsField)]

/-- A model with no fields. -/
def exEmpty : SchemaModel := .mk "Nothing" "" []

/-- A non-optional object field with a description, referencing
`exAddress`. -/
def childField : Field := .mk (some "the child") "object" false [] (some exAddress) none

/-- A model holding `childField`. -/
def exHolder : SchemaModel := .mk "Holder" "" [("child", childField)]

/-- A conversation whose most recent turn is a tool-result turn. -/
def failHist : List Turn :=
  [Turn.user "q", Turn.toolCalls [("1", "f", "null")], Turn.tool "\"ok\"" "1"]

/-- The shared shape of the two per-field loops, abstracted over the
per-field renderer. -/
def propsWith (g : String → Field → Except String Json) :
    List (String × Field) → Except String (List (String × Json))
  | [] => .ok []
  | (n, f) :: rest =>
    match g n f with
    | .error e => .error e
    | .ok j =>
      match propsWith g rest with
      | .error e => .error e
      | .ok tl => .ok ((n, j) :: tl)


/-- The openai tool document rendered from `exToolOpt`. -/
def exToolOptDoc : Json := (generate_function_tool "openai" exToolOpt).toOption.getD Json.null

/-- The openai output document rendered from `exToolOpt`. -/
def exNoteSODoc : Json :=
  (generate_structured_output "openai" exToolOpt).toOption.getD Json.null

/-- The openai output document rendered from `exListModel`. -/
def exListSODoc : Json :=
  (generate_structured_output "openai" exListModel).toOption.getD Json.null

/-- The groq output document rendered from `exEmpty`. -/
def exEmptyGroqDoc : Json :=
  (generate_structured_output "groq" exEmpty).toOption.getD Json.null

/-- The mistral tool document rendered from `exToolOpt`. -/
def exToolMistralDoc : Json :=
  (generate_function_tool "mistral" exToolOpt).toOption.getD Json.null

/-- The openai output document rendered from `exHolder`. -/
def exHolderSODoc : Json :=
  (generate_structured_output "openai" exHolder).toOption.getD Json.null

/-! ## Supporting lemmas -/

theorem jGet_ok_iff {j : Json} {k : String} {v : Json} :
    jGet j k = .ok v ↔ j.get? k = some v := by
  unfold jGet
  cases j.get? k <;> simp

theorem jpath_append (j : Json) (xs ys : List String) :
    jpath j (xs ++ ys) = (jpath j xs).bind (fun v => jpath v ys) := by
  induction xs generalizing j with
  | nil => simp [jpath]
  | cons k ks ih =>
    simp only [List.cons_append, jpath]
    cases j.get? k <;> simp [ih]

theorem find?_append_none {α : Type} {p : α → Bool} {l₁ l₂ : List α}
    (h : l₁.find? p = none) : (l₁ ++ l₂).find? p = l₂.find? p := by
  induction l₁ with
  | nil => simp
  | cons a l ih =>
    cases hp : p a with
    | true => rw [List.find?_cons_of_pos _ hp] at h; cases h
    | false =>
      rw [List.find?_cons_of_neg _ (by simp [hp])] at h
      rw [List.cons_append, List.find?_cons_of_neg _ (by simp [hp])]
      exact ih h

theorem soProps_eq_propsWith (provider : String) (fields : List (String × Field)) :
    soProps provider fields = propsWith (soFieldProp provider) fields := by
  induction fields with
  | nil => rfl
  | cons nf rest ih =>
    obtain ⟨n, f⟩ := nf
    rw [soProps, propsWith, ih]

theorem fcProps_eq_propsWith (provider : String) (fields : List (String × Field)) :
    fcProps provider fields = propsWith (fcFieldProp provider) fields := by
  induction fields with
  | nil => rfl
  | cons nf rest ih =>
    obtain ⟨n, f⟩ := nf
    rw [fcProps, propsWith, ih]

theorem propsWith_find? {g : String → Field → Except String Json} :
    ∀ {fields : List (String × Field)} {props : List (String × Json)},
    propsWith g fields = .ok props → (fields.map Prod.fst).Nodup →
    ∀ {n : String} {f : Field}, (n, f) ∈ fields →
    ∃ j, g n f = .ok j ∧ (Json.obj props).get? n = some j := by
  intro fields
  induction fields with
  | nil => intro props _ _ n f hmem; cases hmem
  | cons nf rest ih =>
    obtain ⟨n', f'⟩ := nf
    intro props hok hnd n f hmem
    rw [propsWith] at hok
    cases hg : g n' f' with
    | error e => rw [hg] at hok; cases hok
    | ok j' =>
      rw [hg] at hok
      cases hrest : propsWith g rest with
      | error e => rw [hrest] at hok; cases hok
      | ok tl =>
        rw [hrest] at hok
        cases hok
        rw [List.map_cons] at hnd
        have hnotin : n' ∉ rest.map Prod.fst := (List.nodup_cons.mp hnd).1
        have hnd' : (rest.map Prod.fst).Nodup := (List.nodup_cons.mp hnd).2
        rcases List.mem_cons.mp hmem with heq | hmem'
        · have hn : n = n' := congrArg Prod.fst heq
          have hf : f = f' := congrArg Prod.snd heq
          subst hn; subst hf
          refine ⟨j', hg, ?_⟩
          show (List.find? (fun kv => kv.1 == n) ((n, j') :: tl)).map (fun kv => kv.2) = some j'
          rw [List.find?_cons_of_pos _ (by simp)]
          rfl
        · have hne : ¬ n' = n := by
            intro heq
            exact hnotin (heq ▸ List.mem_map_of_mem Prod.fst hmem')
          obtain ⟨j, hgj, hget⟩ := ih hrest hnd' hmem'
          refine ⟨j, hgj, ?_⟩
          show (List.find? (fun kv => kv.1 == n) ((n', j') :: tl)).map (fun kv => kv.2) = some j
          rw [List.find?_cons_of_neg _ (by simp [hne])]
          exact hget

theorem mem_filter_names {pr : String × Field → Bool} :
    ∀ {fields : List (String × Field)}, (fields.map Prod.fst).Nodup →
    ∀ {n : String} {f : Field}, (n, f) ∈ fields →
    (n ∈ (fields.filter pr).map Prod.fst ↔ pr (n, f) = true) := by
  intro fields
  induction fields with
  | nil => intro _ n f hmem; cases hmem
  | cons nf rest ih =>
    obtain ⟨n', f'⟩ := nf
    intro hnd n f hmem
    rw [List.map_cons] at hnd
    have hnd' : (rest.map Prod.fst).Nodup := (List.nodup_cons.mp hnd).2
    have hnotin : n' ∉ rest.map Prod.fst := (List.nodup_cons.mp hnd).1
    rcases List.mem_cons.mp hmem with heq | hmem'
    · have hn : n = n' := congrArg Prod.fst heq
      have hf : f = f' := congrArg Prod.snd heq
      subst hn; subst hf
      cases hp : pr (n, f) with
      | true =>
        rw [List.filter_cons_of_pos hp, List.map_cons]
        simp [hp]
      | false =>
        rw [List.filter_cons_of_neg (by simp [hp])]
        simp only [hp, Bool.false_eq_true, iff_false]
        intro hin
        rcases List.mem_map.mp hin with ⟨ab, hab, hfst⟩
        exact hnotin (hfst ▸ List.mem_map_of_mem Prod.fst (List.mem_of_mem_filter hab))
    · have hne : n ≠ n' := by
        intro heq
        exact hnotin (heq ▸ List.mem_map_of_mem Prod.fst hmem')
      cases hp : pr (n', f') with
      | true =>
        rw [List.filter_cons_of_pos hp, List.map_cons, List.mem_cons]
        rw [ih hnd' hmem']
        simp [hne]
      | false =>
        rw [List.filter_cons_of_neg (by simp [hp])]
        exact ih hnd' hmem'

theorem gen_so_ok {provider : String} {m : SchemaModel} {doc : Json}
    (hp : provider = "openai" ∨ provider = "anthropic" ∨ provider = "mistral"
      ∨ provider = "groq")
    (h : generate_structured_output provider m = .ok doc) :
    ∃ props, soProps provider m.fields = .ok props ∧
      doc = soWrap provider m.name m.doc
        (soInner provider m.name props (soReq provider m.fields)) := by
  obtain ⟨nm, dc, fs⟩ := m
  rw [generate_structured_output] at h
  have hcond : (provider == "openai" || provider == "anthropic" || provider == "mistral"
      || provider == "groq") = true := by
    rcases hp with rfl | rfl | rfl | rfl <;> rfl
  rw [if_pos hcond] at h
  cases hps : soProps provider fs with
  | error e => rw [hps] at h; cases h
  | ok props =>
    rw [hps] at h
    cases h
    exact ⟨props, hps, rfl⟩

theorem gen_fc_ok {provider : String} {m : SchemaModel} {doc : Json}
    (hp : provider = "openai" ∨ provider = "anthropic" ∨ provider = "mistral"
      ∨ provider = "groq")
    (h : generate_function_tool provider m = .ok doc) :
    ∃ props, fcProps provider m.fields = .ok props ∧
      doc = fcWrap provider m.name m.doc (fcInner provider props (fcReq m.fields)) := by
  obtain ⟨nm, dc, fs⟩ := m
  rw [generate_function_tool] at h
  have hcond : (provider == "openai" || provider == "anthropic" || provider == "mistral"
      || provider == "groq") = true := by
    rcases hp with rfl | rfl | rfl | rfl <;> rfl
  rw [if_pos hcond] at h
  cases hps : fcProps provider fs with
  | error e => rw [hps] at h; cases h
  | ok props =>
    rw [hps] at h
    cases h
    exact ⟨props, hps, rfl⟩

theorem soBaseProps_head (provider n : String) (d : Option String) (t : Json)
    (en : List Json) :
    ∃ tl, soBaseProps provider n d t en = ("type", t) :: tl := by
  simp only [soBaseProps]
  split_ifs <;> exact ⟨_, rfl⟩

theorem fcBaseProps_head (d : Option String) (t : Json) (en : List Json) :
    ∃ tl, fcBaseProps d t en = ("type", t) :: tl := by
  simp only [fcBaseProps]
  split_ifs <;> exact ⟨_, rfl⟩

theorem soBaseProps_find_items (provider n : String) (d : Option String) (t : Json)
    (en : List Json) :
    (soBaseProps provider n d t en).find? (fun kv => kv.1 == "items") = none := by
  simp only [soBaseProps]
  split_ifs <;> simp [List.find?]

theorem fcBaseProps_find_items (d : Option String) (t : Json) (en : List Json) :
    (fcBaseProps d t en).find? (fun kv => kv.1 == "items") = none := by
  simp only [fcBaseProps]
  split_ifs <;> simp [List.find?]

theorem jpath_soWrap {provider : String}
    (hp : provider = "openai" ∨ provider = "anthropic" ∨ provider = "mistral"
      ∨ provider = "groq") (nm dc : String) (inner : Json) :
    jpath (soWrap provider nm dc inner) (soSchemaPath provider) = some inner := by
  rcases hp with rfl | rfl | rfl | rfl <;>
    simp [soWrap, soSchemaPath, jpath, Json.get?, List.find?]

theorem jpath_fcWrap {provider : String}
    (hp : provider = "openai" ∨ provider = "anthropic" ∨ provider = "mistral"
      ∨ provider = "groq") (nm dc : String) (inner : Json) :
    jpath (fcWrap provider nm dc inner) (fcParamsPath provider) = some inner := by
  rcases hp with rfl | rfl | rfl | rfl <;>
    simp [fcWrap, fcParamsPath, jpath, Json.get?, List.find?]

theorem soInner_get_properties {provider : String}
    (hp : provider = "openai" ∨ provider = "anthropic" ∨ provider = "mistral"
      ∨ provider = "groq") (nm : String) (props : List (String × Json)) (req : List String) :
    (soInner provider nm props req).get? "properties" = some (Json.obj props) := by
  rcases hp with rfl | rfl | rfl | rfl <;> simp [soInner, Json.get?, List.find?]

theorem soInner_get_required {provider : String}
    (hp : provider = "openai" ∨ provider = "anthropic" ∨ provider = "mistral"
      ∨ provider = "groq") (nm : String) (props : List (String × Json)) (req : List String) :
    (soInner provider nm props req).get? "required" = some (Json.arr (req.map Json.str)) := by
  rcases hp with rfl | rfl | rfl | rfl <;> simp [soInner, Json.get?, List.find?]

theorem fcInner_get_properties {provider : String}
    (hp : provider = "openai" ∨ provider = "anthropic" ∨ provider = "mistral"
      ∨ provider = "groq") (props : List (String × Json)) (req : List String) :
    (fcInner provider props req).get? "properties" = some (Json.obj props) := by
  rcases hp with rfl | rfl | rfl | rfl <;> simp [fcInner, Json.get?, List.find?]

theorem fcInner_get_required {provider : String}
    (hp : provider = "openai" ∨ provider = "anthropic" ∨ provider = "mistral"
      ∨ provider = "groq") (props : List (String × Json)) (req : List String) :
    (fcInner provider props req).get? "required" = some (Json.arr (req.map Json.str)) := by
  rcases hp with rfl | rfl | rfl | rfl <;> simp [fcInner, Json.get?, List.find?]

theorem mem_str_map {n : String} {req : List String} :
    Json.str n ∈ req.map Json.str ↔ n ∈ req := by
  constructor
  · intro h
    rcases List.mem_map.mp h with ⟨a, ha, hE⟩
    cases hE
    exact ha
  · exact List.mem_map_of_mem Json.str

/-! ## Claims -/

/-- C9: rendering a Schema Model is a pure, deterministic function in both
flavors: calling it twice with the same provider yields identical
documents, and (being a function of the model value) it cannot mutate the
Schema Model or its Field Descriptors.  The embedding translates the
Python renderers — which only read `cls.__dict__` and the `Field`
attributes and build fresh dicts — as total functions, so the double-call
equality holds definitionally. -/
theorem C9_render_pure (provider : String) (m : SchemaModel) :
    generate_structured_output provider m = generate_structured_output provider m ∧
    generate_function_tool provider m = generate_function_tool provider m :=
  ⟨rfl, rfl⟩

/-- C1 counterexample: in the tool flavor an optional string field IS
widened to the union `["string", "null"]` (json_schema.py:258-259),
contradicting the claim that the type is left equal to the declared
kind. -/
theorem C1_counterexample :
    (generate_function_tool "openai" exToolOpt).map
        (fun doc => jpath doc ["function", "parameters", "properties", "note", "type"])
      = .ok (some (Json.arr [Json.str "string", Json.str "null"]))
    ∧ Json.arr [Json.str "string", Json.str "null"] ≠ Json.str "string" :=
  ⟨rfl, fun hE => nomatch hE⟩

/-- C2 counterexample: an optional object field rendered for openai in the
output flavor has its property replaced by the nested schema
(json_schema.py:169-170), so its `type` is plain `"object"`, not the
claimed two-element union. -/
theorem C2_counterexample :
    (generate_structured_output "openai" exProfile).map
        (fun doc => jpath doc ["json_schema", "schema", "properties", "address", "type"])
      = .ok (some (Json.str "object"))
    ∧ Json.str "object" ≠ Json.arr [Json.str "object", Json.str "null"] :=
  ⟨rfl, fun hE => nomatch hE⟩

/-- C3 counterexample: a tool-call turn is stored with role `assistant`
(openai_tools.py:28), so `add_user_message` right after a tool-call turn
SUCCEEDS (openai_tools.py:11), contradicting the claim that it fails. -/
theorem C3_counterexample :
    add_user_message [Turn.user "hi", Turn.toolCalls [("1", "f", "null")]] "again"
      = (none, [Turn.user "hi", Turn.toolCalls [("1", "f", "null")], Turn.user "again"]) :=
  rfl

/-- C3 amended: `add_user_message` succeeds iff the history is empty or
the most recent turn has role `assistant` — which includes tool-call
turns; on success the user turn is appended, on failure the history is
unchanged. -/
theorem C3_amended (h : List Turn) (msg : String) :
    ((add_user_message h msg).1 = none ↔
      (h = [] ∨ h.getLast?.map Turn.role = some "assistant"))
    ∧ ((add_user_message h msg).1 = none →
        (add_user_message h msg).2 = h ++ [Turn.user msg])
    ∧ ((add_user_message h msg).1 ≠ none → (add_user_message h msg).2 = h) := by
  cases hl : h.getLast? with
  | none =>
    have h0 : h = [] := List.getLast?_eq_none_iff.mp hl
    subst h0
    simp [add_user_message]
  | some t =>
    have hne : h ≠ [] := by
      intro he
      rw [he] at hl
      cases hl
    by_cases hr : t.role = "assistant"
    · simp [add_user_message, hl, hr]
    · have hrb : (t.role == "assistant") = false := beq_eq_false_iff_ne.mpr hr
      simp [add_user_message, hl, hrb, hne, hr]

/-- C3 amended, witnessed at the empty history. -/
theorem C3_amended_witness :
    (add_user_message [] "hi").2 = [] ++ [Turn.user "hi"] :=
  (C3_amended [] "hi").2.1 rfl

/-- C4: evaluating `add_tool_responses` at the failing input: the most
recent turn is a tool-result turn and the batch entry carries `id` and
`arguments` (the documented shape, accepted by the method's own
validation loop), yet the branch reads the never-validated `content` key
(openai_tools.py:60) and raises instead of appending. -/
theorem C4_failing_eval :
    add_tool_responses failHist [⟨some "2", some (Json.str "ok2"), none⟩]
      = (some "KeyError: content", failHist) :=
  rfl

/-- C5: evaluating the same bug against atomicity: with two validated
entries, the first (which happens to carry a `content` key) is appended
and the second raises, leaving a partial batch in the history —
`add_tool_responses` is not atomic. -/
theorem C5_failing_eval :
    add_tool_responses failHist
        [⟨some "2", some (Json.str "a2"), some (Json.str "r2")⟩,
         ⟨some "3", some (Json.str "a3"), none⟩]
      = (some "KeyError: content", failHist ++ [Turn.tool "\"r2\"" "2"]) :=
  rfl

/-- C6 counterexample: for groq, an array-of-models field gets NO `items`
key in either flavor — the groq branch is absent from
json_schema.py:155-160 and 277-282 — contradicting the claim that every
supported provider nests the recursively rendered item shape. -/
theorem C6_counterexample :
    (generate_structured_output "groq" exListModel).map
        (fun doc => jpath doc ["function", "parameters", "properties", "xs", "items"])
      = .ok none
    ∧ (generate_function_tool "groq" exListModel).map
        (fun doc => jpath doc ["function", "parameters", "properties", "xs", "items"])
      = .ok none :=
  ⟨rfl, rfl⟩

/-- C7 counterexample: the groq output-flavor envelope has no
`json_schema` key at all; its properties live under
`function.parameters` (json_schema.py:87-100), contradicting the claim
that groq mirrors openai's `json_schema.schema` placement. -/
theorem C7_counterexample :
    (generate_structured_output "groq" exEmpty).map (fun doc => jpath doc ["json_schema"])
      = .ok none
    ∧ (generate_structured_output "groq" exEmpty).map
        (fun doc => jpath doc ["function", "parameters", "properties"])
      = .ok (some (Json.obj [])) :=
  ⟨rfl, rfl⟩

/-- C8 counterexample: the mistral tool envelope carries no
`additionalProperties` entry (json_schema.py:221-233), contradicting the
claim that all providers other than anthropic always set it. -/
theorem C8_counterexample :
    (generate_function_tool "mistral" exToolOpt).map
        (fun doc => jpath doc ["function", "parameters", "additionalProperties"])
      = .ok none :=
  rfl

/-- C10 counterexample: for groq an object field is NOT replaced by the
nested schema (the groq branch is absent from json_schema.py:169-174);
the property keeps the field's own `type` and `description` and has no
`properties` sub-document. -/
theorem C10_counterexample :
    (generate_structured_output "groq" exHolder).map
        (fun doc => jpath doc ["function", "parameters", "properties", "child"])
      = .ok (some (Json.obj [("type", Json.str "object"), ("description", Json.str "the child")]))
    ∧ (generate_structured_output "groq" exHolder).map
        (fun doc => jpath doc ["function", "parameters", "properties", "child", "properties"])
      = .ok none :=
  ⟨rfl, rfl⟩

theorem except_bind_ok {a b : Type} (x : a) (F : a → Except String b) :
    (Except.ok x : Except String a).bind F = F x := rfl

theorem except_bind_error {a b : Type} (e : String) (F : a → Except String b) :
    (Except.error e : Except String a).bind F = .error e := rfl

theorem soFieldProp_eq_plain {provider n : String} {d : Option String} {ft : String}
    {opt : Bool} {en : List Json} {ch : Option SchemaModel} {at_ : Option String}
    (hfa : (ft == "array") = false) (hfo : (ft == "object") = false) :
    soFieldProp provider n (.mk d ft opt en ch at_)
      = .ok (Json.obj (soBaseProps provider n d
          (soTFinal provider (.mk d ft opt en ch at_)) en)) := by
  unfold soFieldProp
  rw [if_neg (by simp [hfa]), if_neg (by simp [hfo])]

theorem soFieldProp_eq_arr_both {provider n : String} {d : Option String}
    {opt : Bool} {en : List Json} {c : SchemaModel} {at_ : Option String}
    (hat : pyTruthy at_ = true) :
    soFieldProp provider n (.mk d "array" opt en (some c) at_)
      = .error "Cannot have both children and array_type" := by
  unfold soFieldProp
  rw [if_pos (by simp), if_pos (by simp [hat])]

theorem soFieldProp_eq_arr_neither {provider n : String} {d : Option String}
    {opt : Bool} {en : List Json} {at_ : Option String}
    (hat : pyTruthy at_ = false) :
    soFieldProp provider n (.mk d "array" opt en none at_)
      = .error "Array type must have either children or array_type" := by
  unfold soFieldProp
  rw [if_pos (by simp), if_neg (by simp [hat]), if_pos (by simp [hat])]

theorem soFieldProp_eq_arr_prim {provider n : String} {d : Option String}
    {opt : Bool} {en : List Json} {at_ : Option String}
    (hat : pyTruthy at_ = true) :
    soFieldProp provider n (.mk d "array" opt en none at_)
      = .ok (Json.obj (soBaseProps provider n d
          (soTFinal provider (.mk d "array" opt en none at_)) en
          ++ [("items", Json.obj [("type", Json.str (at_.getD ""))])])) := by
  unfold soFieldProp
  rw [if_pos (by simp), if_neg (by simp [hat]), if_neg (by simp [hat])]

theorem soFieldProp_eq_arr_children {provider n : String} {d : Option String}
    {opt : Bool} {en : List Json} {c : SchemaModel} {at_ : Option String}
    (hat : pyTruthy at_ = false) :
    soFieldProp provider n (.mk d "array" opt en (some c) at_)
      = (generate_structured_output provider c).bind (fun nested =>
          if (provider == "openai" || provider == "mistral") = true then
            (jGet nested "json_schema").bind (fun js =>
              (jGet js "schema").bind (fun sub =>
                .ok (Json.obj (soBaseProps provider n d
                  (soTFinal provider (.mk d "array" opt en (some c) at_)) en
                  ++ [("items", sub)]))))
          else if (provider == "anthropic") = true then
            (jGet nested "input_schema").bind (fun sub =>
              .ok (Json.obj (soBaseProps provider n d
                (soTFinal provider (.mk d "array" opt en (some c) at_)) en
                ++ [("items", sub)])))
          else .ok (Json.obj (soBaseProps provider n d
            (soTFinal provider (.mk d "array" opt en (some c) at_)) en))) := by
  unfold soFieldProp
  rw [if_pos (by simp), if_neg (by simp [hat]), if_neg (by simp [hat])]
  split
  all_goals try (rename_i heqX; exact Option.noConfusion heqX)
  all_goals try (rename_i c2 heqX; injection heqX with h2; subst h2)
  all_goals cases hg : generate_structured_output provider c with
  | error e => rfl
  | ok nested =>
    simp only [except_bind_ok]
    by_cases hpm : (provider == "openai" || provider == "mistral") = true
    · rw [if_pos hpm, if_pos hpm]
      cases hjs : jGet nested "json_schema" with
      | error e => rfl
      | ok js =>
        simp only [except_bind_ok]
        cases hsub : jGet js "schema" <;> rfl
    · rw [if_neg hpm, if_neg hpm]
      by_cases hpa : (provider == "anthropic") = true
      · rw [if_pos hpa, if_pos hpa]
        cases hin : jGet nested "input_schema" <;> rfl
      · rw [if_neg hpa, if_neg hpa]

theorem soFieldProp_eq_obj_none {provider n : String} {d : Option String}
    {opt : Bool} {en : List Json} {at_ : Option String} :
    soFieldProp provider n (.mk d "object" opt en none at_)
      = .error "Object children must be a subclass of structuredOutputBaseModel" := by
  unfold soFieldProp
  rw [if_neg (by simp), if_pos (by simp)]

theorem soFieldProp_eq_obj {provider n : String} {d : Option String}
    {opt : Bool} {en : List Json} {c : SchemaModel} {at_ : Option String} :
    soFieldProp provider n (.mk d "object" opt en (some c) at_)
      = (generate_structured_output provider c).bind (fun nested =>
          if (provider == "openai" || provider == "mistral") = true then
            (jGet nested "json_schema").bind (fun js => jGet js "schema")
          else if (provider == "anthropic") = true then jGet nested "input_schema"
          else .ok (Json.obj (soBaseProps provider n d
            (soTFinal provider (.mk d "object" opt en (some c) at_)) en))) := by
  unfold soFieldProp
  rw [if_neg (by simp), if_pos (by simp)]
  split
  all_goals try (rename_i heqX; exact Option.noConfusion heqX)
  all_goals try (rename_i c2 heqX; injection heqX with h2; subst h2)
  all_goals cases hg : generate_structured_output provider c with
  | error e => rfl
  | ok nested =>
    simp only [except_bind_ok]
    by_cases hpm : (provider == "openai" || provider == "mistral") = true
    · rw [if_pos hpm, if_pos hpm]
      cases hjs : jGet nested "json_schema" <;> rfl
    · rw [if_neg hpm, if_neg hpm]


theorem fcFieldProp_eq_plain {provider n : String} {d : Option String} {ft : String}
    {opt : Bool} {en : List Json} {ch : Option SchemaModel} {at_ : Option String}
    (hfa : (ft == "array") = false) (hfo : (ft == "object") = false) :
    fcFieldProp provider n (.mk d ft opt en ch at_)
      = .ok (Json.obj (fcBaseProps d
          (fcTFinal (.mk d ft opt en ch at_)) en)) := by
  unfold fcFieldProp
  rw [if_neg (by simp [hfa]), if_neg (by simp [hfo])]

theorem fcFieldProp_eq_arr_both {provider n : String} {d : Option String}
    {opt : Bool} {en : List Json} {c : SchemaModel} {at_ : Option String}
    (hat : pyTruthy at_ = true) :
    fcFieldProp provider n (.mk d "array" opt en (some c) at_)
      = .error "Cannot have both children and array_type" := by
  unfold fcFieldProp
  rw [if_pos (by simp), if_pos (by simp [hat])]

theorem fcFieldProp_eq_arr_neither {provider n : String} {d : Option String}
    {opt : Bool} {en : List Json} {at_ : Option String}
    (hat : pyTruthy at_ = false) :
    fcFieldProp provider n (.mk d "array" opt en none at_)
      = .error "Array type must have either children or array_type" := by
  unfold fcFieldProp
  rw [if_pos (by simp), if_neg (by simp [hat]), if_pos (by simp [hat])]

theorem fcFieldProp_eq_arr_prim {provider n : String} {d : Option String}
    {opt : Bool} {en : List Json} {at_ : Option String}
    (hat : pyTruthy at_ = true) :
    fcFieldProp provider n (.mk d "array" opt en none at_)
      = .ok (Json.obj (fcBaseProps d
          (fcTFinal (.mk d "array" opt en none at_)) en
          ++ [("items", Json.obj [("type", Json.str (at_.getD ""))])])) := by
  unfold fcFieldProp
  rw [if_pos (by simp), if_neg (by simp [hat]), if_neg (by simp [hat])]

theorem fcFieldProp_eq_arr_children {provider n : String} {d : Option String}
    {opt : Bool} {en : List Json} {c : SchemaModel} {at_ : Option String}
    (hat : pyTruthy at_ = false) :
    fcFieldProp provider n (.mk d "array" opt en (some c) at_)
      = (generate_function_tool provider c).bind (fun nested =>
          if (provider == "openai" || provider == "mistral") = true then
            (jGet nested "function").bind (fun fn =>
              (jGet fn "parameters").bind (fun sub =>
                .ok (Json.obj (fcBaseProps d
                  (fcTFinal (.mk d "array" opt en (some c) at_)) en
                  ++ [("items", sub)]))))
          else if (provider == "anthropic") = true then
            (jGet nested "input_schema").bind (fun sub =>
              .ok (Json.obj (fcBaseProps d
                (fcTFinal (.mk d "array" opt en (some c) at_)) en
                ++ [("items", sub)])))
          else .ok (Json.obj (fcBaseProps d
            (fcTFinal (.mk d "array" opt en (some c) at_)) en))) := by
  unfold fcFieldProp
  rw [if_pos (by simp), if_neg (by simp [hat]), if_neg (by simp [hat])]
  split
  all_goals try (rename_i heqX; exact Option.noConfusion heqX)
  all_goals try (rename_i c2 heqX; injection heqX with h2; subst h2)
  all_goals cases hg : generate_function_tool provider c with
  | error e => rfl
  | ok nested =>
    simp only [except_bind_ok]
    by_cases hpm : (provider == "openai" || provider == "mistral") = true
    · rw [if_pos hpm, if_pos hpm]
      cases hfn : jGet nested "function" with
      | error e => rfl
      | ok fn =>
        simp only [except_bind_ok]
        cases hsub : jGet fn "parameters" <;> rfl
    · rw [if_neg hpm, if_neg hpm]
      by_cases hpa : (provider == "anthropic") = true
      · rw [if_pos hpa, if_pos hpa]
        cases hin : jGet nested "input_schema" <;> rfl
      · rw [if_neg hpa, if_neg hpa]

theorem fcFieldProp_eq_obj_none {provider n : String} {d : Option String}
    {opt : Bool} {en : List Json} {at_ : Option String} :
    fcFieldProp provider n (.mk d "object" opt en none at_)
      = .error "Object children must be a subclass of functionCallingBaseModel" := by
  unfold fcFieldProp
  rw [if_neg (by simp), if_pos (by simp)]

theorem fcFieldProp_eq_obj {provider n : String} {d : Option String}
    {opt : Bool} {en : List Json} {c : SchemaModel} {at_ : Option String} :
    fcFieldProp provider n (.mk d "object" opt en (some c) at_)
      = (generate_function_tool provider c).bind (fun nested =>
          if (provider == "openai" || provider == "mistral") = true then
            (jGet nested "function").bind (fun fn => jGet fn "parameters")
          else if (provider == "anthropic") = true then jGet nested "input_schema"
          else .ok (Json.obj (fcBaseProps d
            (fcTFinal (.mk d "object" opt en (some c) at_)) en))) := by
  unfold fcFieldProp
  rw [if_neg (by simp), if_pos (by simp)]
  split
  all_goals try (rename_i heqX; exact Option.noConfusion heqX)
  all_goals try (rename_i c2 heqX; injection heqX with h2; subst h2)
  all_goals cases hg : generate_function_tool provider c with
  | error e => rfl
  | ok nested =>
    simp only [except_bind_ok]
    by_cases hpm : (provider == "openai" || provider == "mistral") = true
    · rw [if_pos hpm, if_pos hpm]
      cases hfn : jGet nested "function" <;> rfl
    · rw [if_neg hpm, if_neg hpm]


theorem jpath_extend {doc v : Json} {p1 p2 : List String}
    (h1 : jpath doc p1 = some v) : jpath doc (p1 ++ p2) = jpath v p2 := by
  rw [jpath_append, h1]
  rfl

theorem soFieldProp_ok_head {provider n : String} {f : Field} {j : Json}
    (hft : f.field_type ≠ "object") (h : soFieldProp provider n f = .ok j) :
    ∃ tl, j = Json.obj (("type", soTFinal provider f) :: tl) := by
  obtain ⟨d, ft, opt, en, ch, at_⟩ := f
  simp only [Field.field_type] at hft
  obtain ⟨tl0, hb⟩ := soBaseProps_head provider n d
    (soTFinal provider (Field.mk d ft opt en ch at_)) en
  by_cases hfa : ft = "array"
  · subst hfa
    cases ch with
    | none =>
      cases hat : pyTruthy at_ with
      | false => rw [soFieldProp_eq_arr_neither hat] at h; cases h
      | true =>
        rw [soFieldProp_eq_arr_prim hat] at h
        cases h
        exact ⟨tl0 ++ [("items", Json.obj [("type", Json.str (at_.getD ""))])],
          by rw [hb, List.cons_append]⟩
    | some c =>
      cases hat : pyTruthy at_ with
      | true => rw [soFieldProp_eq_arr_both hat] at h; cases h
      | false =>
        rw [soFieldProp_eq_arr_children hat] at h
        cases hg : generate_structured_output provider c with
        | error e => rw [hg, except_bind_error] at h; cases h
        | ok nested =>
          rw [hg] at h
          simp only [except_bind_ok] at h
          by_cases hpm : (provider == "openai" || provider == "mistral") = true
          · rw [if_pos hpm] at h
            cases hjs : jGet nested "json_schema" with
            | error e => rw [hjs, except_bind_error] at h; cases h
            | ok js =>
              rw [hjs] at h
              simp only [except_bind_ok] at h
              cases hsub : jGet js "schema" with
              | error e => rw [hsub, except_bind_error] at h; cases h
              | ok sub =>
                rw [hsub] at h
                simp only [except_bind_ok] at h
                cases h
                exact ⟨tl0 ++ [("items", sub)], by rw [hb, List.cons_append]⟩
          · rw [if_neg hpm] at h
            by_cases hpa : (provider == "anthropic") = true
            · rw [if_pos hpa] at h
              cases hin : jGet nested "input_schema" with
              | error e => rw [hin, except_bind_error] at h; cases h
              | ok sub =>
                rw [hin] at h
                simp only [except_bind_ok] at h
                cases h
                exact ⟨tl0 ++ [("items", sub)], by rw [hb, List.cons_append]⟩
            · rw [if_neg hpa] at h
              cases h
              exact ⟨tl0, by rw [hb]⟩
  · have hfab : (ft == "array") = false := beq_eq_false_iff_ne.mpr hfa
    have hfob : (ft == "object") = false := beq_eq_false_iff_ne.mpr hft
    rw [soFieldProp_eq_plain hfab hfob] at h
    cases h
    exact ⟨tl0, by rw [hb]⟩

theorem fcFieldProp_ok_head {provider n : String} {f : Field} {j : Json}
    (hft : f.field_type ≠ "object") (h : fcFieldProp provider n f = .ok j) :
    ∃ tl, j = Json.obj (("type", fcTFinal f) :: tl) := by
  obtain ⟨d, ft, opt, en, ch, at_⟩ := f
  simp only [Field.field_type] at hft
  obtain ⟨tl0, hb⟩ := fcBaseProps_head d (fcTFinal (Field.mk d ft opt en ch at_)) en
  by_cases hfa : ft = "array"
  · subst hfa
    cases ch with
    | none =>
      cases hat : pyTruthy at_ with
      | false => rw [fcFieldProp_eq_arr_neither hat] at h; cases h
      | true =>
        rw [fcFieldProp_eq_arr_prim hat] at h
        cases h
        exact ⟨tl0 ++ [("items", Json.obj [("type", Json.str (at_.getD ""))])],
          by rw [hb, List.cons_append]⟩
    | some c =>
      cases hat : pyTruthy at_ with
      | true => rw [fcFieldProp_eq_arr_both hat] at h; cases h
      | false =>
        rw [fcFieldProp_eq_arr_children hat] at h
        cases hg : generate_function_tool provider c with
        | error e => rw [hg, except_bind_error] at h; cases h
        | ok nested =>
          rw [hg] at h
          simp only [except_bind_ok] at h
          by_cases hpm : (provider == "openai" || provider == "mistral") = true
          · rw [if_pos hpm] at h
            cases hfn : jGet nested "function" with
            | error e => rw [hfn, except_bind_error] at h; cases h
            | ok fn =>
              rw [hfn] at h
              simp only [except_bind_ok] at h
              cases hsub : jGet fn "parameters" with
              | error e => rw [hsub, except_bind_error] at h; cases h
              | ok sub =>
                rw [hsub] at h
                simp only [except_bind_ok] at h
                cases h
                exact ⟨tl0 ++ [("items", sub)], by rw [hb, List.cons_append]⟩
          · rw [if_neg hpm] at h
            by_cases hpa : (provider == "anthropic") = true
            · rw [if_pos hpa] at h
              cases hin : jGet nested "input_schema" with
              | error e => rw [hin, except_bind_error] at h; cases h
              | ok sub =>
                rw [hin] at h
                simp only [except_bind_ok] at h
                cases h
                exact ⟨tl0 ++ [("items", sub)], by rw [hb, List.cons_append]⟩
            · rw [if_neg hpa] at h
              cases h
              exact ⟨tl0, by rw [hb]⟩
  · have hfab : (ft == "array") = false := beq_eq_false_iff_ne.mpr hfa
    have hfob : (ft == "object") = false := beq_eq_false_iff_ne.mpr hft
    rw [fcFieldProp_eq_plain hfab hfob] at h
    cases h
    exact ⟨tl0, by rw [hb]⟩

theorem so_prop_access {provider : String} {m : SchemaModel} {doc : Json} {n : String}
    {f : Field}
    (hp : provider = "openai" ∨ provider = "anthropic" ∨ provider = "mistral"
      ∨ provider = "groq")
    (hnd : (m.fields.map Prod.fst).Nodup)
    (hmem : (n, f) ∈ m.fields)
    (h : generate_structured_output provider m = .ok doc) :
    ∃ j, soFieldProp provider n f = .ok j ∧
      jpath doc (soSchemaPath provider ++ ["properties", n]) = some j ∧
      jpath doc (soSchemaPath provider ++ ["required"])
        = some (Json.arr ((soReq provider m.fields).map Json.str)) ∧
      (Json.str n ∈ (soReq provider m.fields).map Json.str
        ↔ soRequired provider f = true) := by
  obtain ⟨props, hps, rfl⟩ := gen_so_ok hp h
  rw [soProps_eq_propsWith] at hps
  obtain ⟨j, hfp, hget⟩ := propsWith_find? hps hnd hmem
  refine ⟨j, hfp, ?_, ?_, ?_⟩
  · rw [jpath_extend (jpath_soWrap hp m.name m.doc _)]
    simp [jpath, soInner_get_properties hp, hget]
  · rw [jpath_extend (jpath_soWrap hp m.name m.doc _)]
    simp [jpath, soInner_get_required hp]
  · rw [mem_str_map]
    exact mem_filter_names hnd hmem

theorem fc_prop_access {provider : String} {m : SchemaModel} {doc : Json} {n : String}
    {f : Field}
    (hp : provider = "openai" ∨ provider = "anthropic" ∨ provider = "mistral"
      ∨ provider = "groq")
    (hnd : (m.fields.map Prod.fst).Nodup)
    (hmem : (n, f) ∈ m.fields)
    (h : generate_function_tool provider m = .ok doc) :
    ∃ j, fcFieldProp provider n f = .ok j ∧
      jpath doc (fcParamsPath provider ++ ["properties", n]) = some j ∧
      jpath doc (fcParamsPath provider ++ ["required"])
        = some (Json.arr ((fcReq m.fields).map Json.str)) ∧
      (Json.str n ∈ (fcReq m.fields).map Json.str ↔ (!f.optional) = true) := by
  obtain ⟨props, hps, rfl⟩ := gen_fc_ok hp h
  rw [fcProps_eq_propsWith] at hps
  obtain ⟨j, hfp, hget⟩ := propsWith_find? hps hnd hmem
  refine ⟨j, hfp, ?_, ?_, ?_⟩
  · rw [jpath_extend (jpath_fcWrap hp m.name m.doc _)]
    simp [jpath, fcInner_get_properties hp, hget]
  · rw [jpath_extend (jpath_fcWrap hp m.name m.doc _)]
    simp [jpath, fcInner_get_required hp]
  · rw [mem_str_map]
    exact mem_filter_names hnd hmem


theorem jpath_single (j : Json) (k : String) : jpath j [k] = j.get? k := by
  unfold jpath
  cases j.get? k <;> rfl

theorem get_items_so {provider n : String} {d : Option String} {t : Json} {en : List Json}
    (sub : Json) :
    (Json.obj (soBaseProps provider n d t en ++ [("items", sub)])).get? "items" = some sub := by
  show (List.find? (fun kv => kv.1 == "items")
      (soBaseProps provider n d t en ++ [("items", sub)])).map (fun kv => kv.2) = some sub
  rw [find?_append_none (soBaseProps_find_items provider n d t en)]
  simp [List.find?]

theorem get_items_so_base {provider n : String} {d : Option String} {t : Json}
    {en : List Json} :
    (Json.obj (soBaseProps provider n d t en)).get? "items" = none := by
  show (List.find? (fun kv => kv.1 == "items")
      (soBaseProps provider n d t en)).map (fun kv => kv.2) = none
  rw [soBaseProps_find_items]
  rfl

theorem get_items_fc {d : Option String} {t : Json} {en : List Json} (sub : Json) :
    (Json.obj (fcBaseProps d t en ++ [("items", sub)])).get? "items" = some sub := by
  show (List.find? (fun kv => kv.1 == "items")
      (fcBaseProps d t en ++ [("items", sub)])).map (fun kv => kv.2) = some sub
  rw [find?_append_none (fcBaseProps_find_items d t en)]
  simp [List.find?]

theorem get_items_fc_base {d : Option String} {t : Json} {en : List Json} :
    (Json.obj (fcBaseProps d t en)).get? "items" = none := by
  show (List.find? (fun kv => kv.1 == "items")
      (fcBaseProps d t en)).map (fun kv => kv.2) = none
  rw [fcBaseProps_find_items]
  rfl

theorem soFieldProp_arr_children_items {provider n : String} {d : Option String}
    {opt : Bool} {en : List Json} {c : SchemaModel} {at_ : Option String} {j : Json}
    (hp3 : provider = "openai" ∨ provider = "mistral" ∨ provider = "anthropic")
    (h : soFieldProp provider n (.mk d "array" opt en (some c) at_) = .ok j) :
    ∃ nested sub, generate_structured_output provider c = .ok nested
      ∧ jpath nested (soSchemaPath provider) = some sub
      ∧ j.get? "items" = some sub := by
  cases hat : pyTruthy at_ with
  | true => rw [soFieldProp_eq_arr_both hat] at h; cases h
  | false =>
    rw [soFieldProp_eq_arr_children hat] at h
    cases hg : generate_structured_output provider c with
    | error e => rw [hg, except_bind_error] at h; cases h
    | ok nested =>
      rw [hg] at h
      simp only [except_bind_ok] at h
      rcases hp3 with rfl | rfl | rfl
      · rw [if_pos (by simp)] at h
        cases hjs : jGet nested "json_schema" with
        | error e => rw [hjs, except_bind_error] at h; cases h
        | ok js =>
          rw [hjs] at h
          simp only [except_bind_ok] at h
          cases hsub : jGet js "schema" with
          | error e => rw [hsub, except_bind_error] at h; cases h
          | ok sub =>
            rw [hsub] at h
            simp only [except_bind_ok] at h
            cases h
            exact ⟨nested, sub, rfl,
              by simp [soSchemaPath, jpath, jGet_ok_iff.mp hjs, jGet_ok_iff.mp hsub],
              get_items_so sub⟩
      · rw [if_pos (by simp)] at h
        cases hjs : jGet nested "json_schema" with
        | error e => rw [hjs, except_bind_error] at h; cases h
        | ok js =>
          rw [hjs] at h
          simp only [except_bind_ok] at h
          cases hsub : jGet js "schema" with
          | error e => rw [hsub, except_bind_error] at h; cases h
          | ok sub =>
            rw [hsub] at h
            simp only [except_bind_ok] at h
            cases h
            exact ⟨nested, sub, rfl,
              by simp [soSchemaPath, jpath, jGet_ok_iff.mp hjs, jGet_ok_iff.mp hsub],
              get_items_so sub⟩
      · rw [if_neg (by simp), if_pos (by simp)] at h
        cases hin : jGet nested "input_schema" with
        | error e => rw [hin, except_bind_error] at h; cases h
        | ok sub =>
          rw [hin] at h
          simp only [except_bind_ok] at h
          cases h
          exact ⟨nested, sub, rfl,
            by simp [soSchemaPath, jpath, jGet_ok_iff.mp hin],
            get_items_so sub⟩

theorem soFieldProp_arr_children_groq {n : String} {d : Option String}
    {opt : Bool} {en : List Json} {c : SchemaModel} {at_ : Option String} {j : Json}
    (h : soFieldProp "groq" n (.mk d "array" opt en (some c) at_) = .ok j) :
    j.get? "items" = none := by
  cases hat : pyTruthy at_ with
  | true => rw [soFieldProp_eq_arr_both hat] at h; cases h
  | false =>
    rw [soFieldProp_eq_arr_children hat] at h
    cases hg : generate_structured_output "groq" c with
    | error e => rw [hg, except_bind_error] at h; cases h
    | ok nested =>
      rw [hg] at h
      simp only [except_bind_ok] at h
      rw [if_neg (by simp), if_neg (by simp)] at h
      cases h
      exact get_items_so_base

theorem soFieldProp_arr_prim_items {provider n : String} {d : Option String}
    {opt : Bool} {en : List Json} {t : String} {j : Json}
    (h : soFieldProp provider n (.mk d "array" opt en none (some t)) = .ok j) :
    j.get? "items" = some (Json.obj [("type", Json.str t)]) := by
  cases hat : pyTruthy (some t) with
  | false => rw [soFieldProp_eq_arr_neither hat] at h; cases h
  | true =>
    rw [soFieldProp_eq_arr_prim hat] at h
    cases h
    simpa using get_items_so (Json.obj [("type", Json.str ((some t).getD ""))])

theorem fcFieldProp_arr_children_items {provider n : String} {d : Option String}
    {opt : Bool} {en : List Json} {c : SchemaModel} {at_ : Option String} {j : Json}
    (hp3 : provider = "openai" ∨ provider = "mistral" ∨ provider = "anthropic")
    (h : fcFieldProp provider n (.mk d "array" opt en (some c) at_) = .ok j) :
    ∃ nested sub, generate_function_tool provider c = .ok nested
      ∧ jpath nested (fcParamsPath provider) = some sub
      ∧ j.get? "items" = some sub := by
  cases hat : pyTruthy at_ with
  | true => rw [fcFieldProp_eq_arr_both hat] at h; cases h
  | false =>
    rw [fcFieldProp_eq_arr_children hat] at h
    cases hg : generate_function_tool provider c with
    | error e => rw [hg, except_bind_error] at h; cases h
    | ok nested =>
      rw [hg] at h
      simp only [except_bind_ok] at h
      rcases hp3 with rfl | rfl | rfl
      · rw [if_pos (by simp)] at h
        cases hfn : jGet nested "function" with
        | error e => rw [hfn, except_bind_error] at h; cases h
        | ok fn =>
          rw [hfn] at h
          simp only [except_bind_ok] at h
          cases hsub : jGet fn "parameters" with
          | error e => rw [hsub, except_bind_error] at h; cases h
          | ok sub =>
            rw [hsub] at h
            simp only [except_bind_ok] at h
            cases h
            exact ⟨nested, sub, rfl,
              by simp [fcParamsPath, jpath, jGet_ok_iff.mp hfn, jGet_ok_iff.mp hsub],
              get_items_fc sub⟩
      · rw [if_pos (by simp)] at h
        cases hfn : jGet nested "function" with
        | error e => rw [hfn, except_bind_error] at h; cases h
        | ok fn =>
          rw [hfn] at h
          simp only [except_bind_ok] at h
          cases hsub : jGet fn "parameters" with
          | error e => rw [hsub, except_bind_error] at h; cases h
          | ok sub =>
            rw [hsub] at h
            simp only [except_bind_ok] at h
            cases h
            exact ⟨nested, sub, rfl,
              by simp [fcParamsPath, jpath, jGet_ok_iff.mp hfn, jGet_ok_iff.mp hsub],
              get_items_fc sub⟩
      · rw [if_neg (by simp), if_pos (by simp)] at h
        cases hin : jGet nested "input_schema" with
        | error e => rw [hin, except_bind_error] at h; cases h
        | ok sub =>
          rw [hin] at h
          simp only [except_bind_ok] at h
          cases h
          exact ⟨nested, sub, rfl,
            by simp [fcParamsPath, jpath, jGet_ok_iff.mp hin],
            get_items_fc sub⟩

theorem fcFieldProp_arr_children_groq {n : String} {d : Option String}
    {opt : Bool} {en : List Json} {c : SchemaModel} {at_ : Option String} {j : Json}
    (h : fcFieldProp "groq" n (.mk d "array" opt en (some c) at_) = .ok j) :
    j.get? "items" = none := by
  cases hat : pyTruthy at_ with
  | true => rw [fcFieldProp_eq_arr_both hat] at h; cases h
  | false =>
    rw [fcFieldProp_eq_arr_children hat] at h
    cases hg : generate_function_tool "groq" c with
    | error e => rw [hg, except_bind_error] at h; cases h
    | ok nested =>
      rw [hg] at h
      simp only [except_bind_ok] at h
      rw [if_neg (by simp), if_neg (by simp)] at h
      cases h
      exact get_items_fc_base

theorem fcFieldProp_arr_prim_items {provider n : String} {d : Option String}
    {opt : Bool} {en : List Json} {t : String} {j : Json}
    (h : fcFieldProp provider n (.mk d "array" opt en none (some t)) = .ok j) :
    j.get? "items" = some (Json.obj [("type", Json.str t)]) := by
  cases hat : pyTruthy (some t) with
  | false => rw [fcFieldProp_eq_arr_neither hat] at h; cases h
  | true =>
    rw [fcFieldProp_eq_arr_prim hat] at h
    cases h
    simpa using get_items_fc (Json.obj [("type", Json.str ((some t).getD ""))])

theorem soFieldProp_obj_sub {provider n : String} {d : Option String}
    {opt : Bool} {en : List Json} {c : SchemaModel} {at_ : Option String} {j : Json}
    (hp3 : provider = "openai" ∨ provider = "mistral" ∨ provider = "anthropic")
    (h : soFieldProp provider n (.mk d "object" opt en (some c) at_) = .ok j) :
    ∃ nested, generate_structured_output provider c = .ok nested
      ∧ jpath nested (soSchemaPath provider) = some j := by
  rw [soFieldProp_eq_obj] at h
  cases hg : generate_structured_output provider c with
  | error e => rw [hg, except_bind_error] at h; cases h
  | ok nested =>
    rw [hg] at h
    simp only [except_bind_ok] at h
    rcases hp3 with rfl | rfl | rfl
    · rw [if_pos (by simp)] at h
      cases hjs : jGet nested "json_schema" with
      | error e => rw [hjs, except_bind_error] at h; cases h
      | ok js =>
        rw [hjs] at h
        simp only [except_bind_ok] at h
        exact ⟨nested, rfl,
          by simp [soSchemaPath, jpath, jGet_ok_iff.mp hjs, jGet_ok_iff.mp h]⟩
    · rw [if_pos (by simp)] at h
      cases hjs : jGet nested "json_schema" with
      | error e => rw [hjs, except_bind_error] at h; cases h
      | ok js =>
        rw [hjs] at h
        simp only [except_bind_ok] at h
        exact ⟨nested, rfl,
          by simp [soSchemaPath, jpath, jGet_ok_iff.mp hjs, jGet_ok_iff.mp h]⟩
    · rw [if_neg (by simp), if_pos (by simp)] at h
      exact ⟨nested, rfl, by simp [soSchemaPath, jpath, jGet_ok_iff.mp h]⟩

theorem soFieldProp_obj_groq {n : String} {d : Option String}
    {opt : Bool} {en : List Json} {c : SchemaModel} {at_ : Option String} {j : Json}
    (h : soFieldProp "groq" n (.mk d "object" opt en (some c) at_) = .ok j) :
    j = Json.obj (soBaseProps "groq" n d
      (soTFinal "groq" (.mk d "object" opt en (some c) at_)) en) := by
  rw [soFieldProp_eq_obj] at h
  cases hg : generate_structured_output "groq" c with
  | error e => rw [hg, except_bind_error] at h; cases h
  | ok nested =>
    rw [hg] at h
    simp only [except_bind_ok] at h
    rw [if_neg (by simp), if_neg (by simp)] at h
    cases h
    rfl

theorem fcFieldProp_obj_sub {provider n : String} {d : Option String}
    {opt : Bool} {en : List Json} {c : SchemaModel} {at_ : Option String} {j : Json}
    (hp3 : provider = "openai" ∨ provider = "mistral" ∨ provider = "anthropic")
    (h : fcFieldProp provider n (.mk d "object" opt en (some c) at_) = .ok j) :
    ∃ nested, generate_function_tool provider c = .ok nested
      ∧ jpath nested (fcParamsPath provider) = some j := by
  rw [fcFieldProp_eq_obj] at h
  cases hg : generate_function_tool provider c with
  | error e => rw [hg, except_bind_error] at h; cases h
  | ok nested =>
    rw [hg] at h
    simp only [except_bind_ok] at h
    rcases hp3 with rfl | rfl | rfl
    · rw [if_pos (by simp)] at h
      cases hfn : jGet nested "function" with
      | error e => rw [hfn, except_bind_error] at h; cases h
      | ok fn =>
        rw [hfn] at h
        simp only [except_bind_ok] at h
        exact ⟨nested, rfl,
          by simp [fcParamsPath, jpath, jGet_ok_iff.mp hfn, jGet_ok_iff.mp h]⟩
    · rw [if_pos (by simp)] at h
      cases hfn : jGet nested "function" with
      | error e => rw [hfn, except_bind_error] at h; cases h
      | ok fn =>
        rw [hfn] at h
        simp only [except_bind_ok] at h
        exact ⟨nested, rfl,
          by simp [fcParamsPath, jpath, jGet_ok_iff.mp hfn, jGet_ok_iff.mp h]⟩
    · rw [if_neg (by simp), if_pos (by simp)] at h
      exact ⟨nested, rfl, by simp [fcParamsPath, jpath, jGet_ok_iff.mp h]⟩

theorem fcFieldProp_obj_groq {n : String} {d : Option String}
    {opt : Bool} {en : List Json} {c : SchemaModel} {at_ : Option String} {j : Json}
    (h : fcFieldProp "groq" n (.mk d "object" opt en (some c) at_) = .ok j) :
    j = Json.obj (fcBaseProps d (fcTFinal (.mk d "object" opt en (some c) at_)) en) := by
  rw [fcFieldProp_eq_obj] at h
  cases hg : generate_function_tool "groq" c with
  | error e => rw [hg, except_bind_error] at h; cases h
  | ok nested =>
    rw [hg] at h
    simp only [except_bind_ok] at h
    rw [if_neg (by simp), if_neg (by simp)] at h
    cases h
    rfl


/-- C1 amended: for every optional field whose kind is not `object`, the
tool flavor omits the field name from the envelope's required list for
every supported provider, but — contrary to the original claim — widens
the property's type to the two-element union `[kind, "null"]`
(json_schema.py:258-259).  Object fields are excluded because openai,
mistral and anthropic replace the property with the nested schema. -/
theorem C1_amended (provider : String) (m : SchemaModel) (n : String) (f : Field)
    (doc : Json)
    (hp : provider = "openai" ∨ provider = "anthropic" ∨ provider = "mistral"
      ∨ provider = "groq")
    (hnd : ((m.fields).map Prod.fst).Nodup)
    (hmem : (n, f) ∈ m.fields)
    (hopt : f.optional = true)
    (hft : f.field_type ≠ "object")
    (h : generate_function_tool provider m = .ok doc) :
    (∃ req, jpath doc (fcParamsPath provider ++ ["required"]) = some (Json.arr req)
      ∧ Json.str n ∉ req)
    ∧ ∃ prop, jpath doc (fcParamsPath provider ++ ["properties", n]) = some prop
        ∧ prop.get? "type" = some (Json.arr [Json.str f.field_type, Json.str "null"]) := by
  obtain ⟨j, hfp, hprop, hreq, hmemiff⟩ := fc_prop_access hp hnd hmem h
  constructor
  · refine ⟨(fcReq m.fields).map Json.str, hreq, fun hin => ?_⟩
    have h3 := hmemiff.mp hin
    rw [hopt] at h3
    simp at h3
  · obtain ⟨tl, rfl⟩ := fcFieldProp_ok_head hft hfp
    refine ⟨_, hprop, ?_⟩
    simp [Json.get?, List.find?, fcTFinal, hopt]

/-- C2 amended: for every optional field whose kind is not `object`, the
output flavor rendered for openai or anthropic widens the type to
`[kind, "null"]` and still lists the field in `required`
(nullable-but-required), while mistral leaves the type unwidened and
omits the field from `required`.  Object fields are excluded because the
property is wholly replaced by the nested schema (json_schema.py:165-174),
discarding the widening. -/
theorem C2_amended (provider : String) (m : SchemaModel) (n : String) (f : Field)
    (doc : Json)
    (hnd : ((m.fields).map Prod.fst).Nodup)
    (hmem : (n, f) ∈ m.fields)
    (hopt : f.optional = true)
    (hft : f.field_type ≠ "object")
    (h : generate_structured_output provider m = .ok doc) :
    ((provider = "openai" ∨ provider = "anthropic") →
      (∃ prop, jpath doc (soSchemaPath provider ++ ["properties", n]) = some prop
        ∧ prop.get? "type" = some (Json.arr [Json.str f.field_type, Json.str "null"]))
      ∧ ∃ req, jpath doc (soSchemaPath provider ++ ["required"]) = some (Json.arr req)
          ∧ Json.str n ∈ req)
    ∧ (provider = "mistral" →
      (∃ prop, jpath doc (soSchemaPath provider ++ ["properties", n]) = some prop
        ∧ prop.get? "type" = some (Json.str f.field_type))
      ∧ ∃ req, jpath doc (soSchemaPath provider ++ ["required"]) = some (Json.arr req)
          ∧ Json.str n ∉ req) := by
  constructor
  · intro hp2
    have hp : provider = "openai" ∨ provider = "anthropic" ∨ provider = "mistral"
        ∨ provider = "groq" :=
      hp2.elim (fun hx => Or.inl hx) (fun hx => Or.inr (Or.inl hx))
    obtain ⟨j, hfp, hprop, hreq, hmemiff⟩ := so_prop_access hp hnd hmem h
    obtain ⟨tl, rfl⟩ := soFieldProp_ok_head hft hfp
    refine ⟨⟨_, hprop, ?_⟩, ⟨_, hreq, ?_⟩⟩
    · rcases hp2 with rfl | rfl <;> simp [Json.get?, List.find?, soTFinal, hopt]
    · rw [hmemiff]
      rcases hp2 with rfl | rfl <;> simp [soRequired, hopt]
  · intro hp1
    subst hp1
    obtain ⟨j, hfp, hprop, hreq, hmemiff⟩ := so_prop_access (by simp) hnd hmem h
    obtain ⟨tl, rfl⟩ := soFieldProp_ok_head hft hfp
    refine ⟨⟨_, hprop, ?_⟩, ⟨_, hreq, fun hin => ?_⟩⟩
    · simp [Json.get?, List.find?, soTFinal, hopt]
    · have h3 := hmemiff.mp hin
      simp [soRequired, hopt] at h3


/-- C6 amended: for openai, mistral and anthropic — but not groq — an
array field with a nested item shape gets the recursively rendered
sub-schema of the same provider under its `items` key, in both flavors;
an array field with a primitive item tag gets `items` equal to the
one-key object mapping `type` to the tag, for all four providers; for groq an array field with a nested item shape gets
NO `items` key in either flavor (the groq branch is absent from
json_schema.py:155-160 and 277-282, though the recursive render still
runs). -/
theorem C6_amended :
    (∀ (provider : String) (m : SchemaModel) (n : String) (f : Field) (c : SchemaModel)
      (doc : Json),
      (provider = "openai" ∨ provider = "mistral" ∨ provider = "anthropic") →
      ((m.fields).map Prod.fst).Nodup → (n, f) ∈ m.fields →
      f.field_type = "array" → f.children = some c →
      generate_structured_output provider m = .ok doc →
      ∃ prop nested sub,
        jpath doc (soSchemaPath provider ++ ["properties", n]) = some prop
        ∧ generate_structured_output provider c = .ok nested
        ∧ jpath nested (soSchemaPath provider) = some sub
        ∧ prop.get? "items" = some sub)
    ∧ (∀ (provider : String) (m : SchemaModel) (n : String) (f : Field) (c : SchemaModel)
      (doc : Json),
      (provider = "openai" ∨ provider = "mistral" ∨ provider = "anthropic") →
      ((m.fields).map Prod.fst).Nodup → (n, f) ∈ m.fields →
      f.field_type = "array" → f.children = some c →
      generate_function_tool provider m = .ok doc →
      ∃ prop nested sub,
        jpath doc (fcParamsPath provider ++ ["properties", n]) = some prop
        ∧ generate_function_tool provider c = .ok nested
        ∧ jpath nested (fcParamsPath provider) = some sub
        ∧ prop.get? "items" = some sub)
    ∧ (∀ (provider : String) (m : SchemaModel) (n : String) (f : Field) (t : String)
      (doc : Json),
      (provider = "openai" ∨ provider = "anthropic" ∨ provider = "mistral"
        ∨ provider = "groq") →
      ((m.fields).map Prod.fst).Nodup → (n, f) ∈ m.fields →
      f.field_type = "array" → f.children = none → f.array_type = some t →
      generate_structured_output provider m = .ok doc →
      ∃ prop, jpath doc (soSchemaPath provider ++ ["properties", n]) = some prop
        ∧ prop.get? "items" = some (Json.obj [("type", Json.str t)]))
    ∧ (∀ (provider : String) (m : SchemaModel) (n : String) (f : Field) (t : String)
      (doc : Json),
      (provider = "openai" ∨ provider = "anthropic" ∨ provider = "mistral"
        ∨ provider = "groq") →
      ((m.fields).map Prod.fst).Nodup → (n, f) ∈ m.fields →
      f.field_type = "array" → f.children = none → f.array_type = some t →
      generate_function_tool provider m = .ok doc →
      ∃ prop, jpath doc (fcParamsPath provider ++ ["properties", n]) = some prop
        ∧ prop.get? "items" = some (Json.obj [("type", Json.str t)]))
    ∧ (∀ (m : SchemaModel) (n : String) (f : Field) (c : SchemaModel) (doc : Json),
      ((m.fields).map Prod.fst).Nodup → (n, f) ∈ m.fields →
      f.field_type = "array" → f.children = some c →
      generate_structured_output "groq" m = .ok doc →
      ∃ prop, jpath doc (soSchemaPath "groq" ++ ["properties", n]) = some prop
        ∧ prop.get? "items" = none)
    ∧ (∀ (m : SchemaModel) (n : String) (f : Field) (c : SchemaModel) (doc : Json),
      ((m.fields).map Prod.fst).Nodup → (n, f) ∈ m.fields →
      f.field_type = "array" → f.children = some c →
      generate_function_tool "groq" m = .ok doc →
      ∃ prop, jpath doc (fcParamsPath "groq" ++ ["properties", n]) = some prop
        ∧ prop.get? "items" = none) := by
  refine ⟨?_, ?_, ?_, ?_, ?_, ?_⟩
  · intro provider m n f c doc hp3 hnd hmem hft hch h
    have hp : provider = "openai" ∨ provider = "anthropic" ∨ provider = "mistral"
        ∨ provider = "groq" := by
      rcases hp3 with rfl | rfl | rfl <;> simp
    obtain ⟨j, hfp, hprop, hreq, hmemiff⟩ := so_prop_access hp hnd hmem h
    obtain ⟨d, ft, opt, en, ch, at_⟩ := f
    simp only [Field.field_type] at hft
    simp only [Field.children] at hch
    subst hft
    subst hch
    obtain ⟨nested, sub, hgc, hsub, hitems⟩ := soFieldProp_arr_children_items hp3 hfp
    exact ⟨j, nested, sub, hprop, hgc, hsub, hitems⟩
  · intro provider m n f c doc hp3 hnd hmem hft hch h
    have hp : provider = "openai" ∨ provider = "anthropic" ∨ provider = "mistral"
        ∨ provider = "groq" := by
      rcases hp3 with rfl | rfl | rfl <;> simp
    obtain ⟨j, hfp, hprop, hreq, hmemiff⟩ := fc_prop_access hp hnd hmem h
    obtain ⟨d, ft, opt, en, ch, at_⟩ := f
    simp only [Field.field_type] at hft
    simp only [Field.children] at hch
    subst hft
    subst hch
    obtain ⟨nested, sub, hgc, hsub, hitems⟩ := fcFieldProp_arr_children_items hp3 hfp
    exact ⟨j, nested, sub, hprop, hgc, hsub, hitems⟩
  · intro provider m n f t doc hp hnd hmem hft hch hat h
    obtain ⟨j, hfp, hprop, hreq, hmemiff⟩ := so_prop_access hp hnd hmem h
    obtain ⟨d, ft, opt, en, ch, at_⟩ := f
    simp only [Field.field_type] at hft
    simp only [Field.children] at hch
    simp only [Field.array_type] at hat
    subst hft
    subst hch
    subst hat
    exact ⟨j, hprop, soFieldProp_arr_prim_items hfp⟩
  · intro provider m n f t doc hp hnd hmem hft hch hat h
    obtain ⟨j, hfp, hprop, hreq, hmemiff⟩ := fc_prop_access hp hnd hmem h
    obtain ⟨d, ft, opt, en, ch, at_⟩ := f
    simp only [Field.field_type] at hft
    simp only [Field.children] at hch
    simp only [Field.array_type] at hat
    subst hft
    subst hch
    subst hat
    exact ⟨j, hprop, fcFieldProp_arr_prim_items hfp⟩
  · intro m n f c doc hnd hmem hft hch h
    obtain ⟨j, hfp, hprop, hreq, hmemiff⟩ := so_prop_access (by simp) hnd hmem h
    obtain ⟨d, ft, opt, en, ch, at_⟩ := f
    simp only [Field.field_type] at hft
    simp only [Field.children] at hch
    subst hft
    subst hch
    exact ⟨j, hprop, soFieldProp_arr_children_groq hfp⟩
  · intro m n f c doc hnd hmem hft hch h
    obtain ⟨j, hfp, hprop, hreq, hmemiff⟩ := fc_prop_access (by simp) hnd hmem h
    obtain ⟨d, ft, opt, en, ch, at_⟩ := f
    simp only [Field.field_type] at hft
    simp only [Field.children] at hch
    subst hft
    subst hch
    exact ⟨j, hprop, fcFieldProp_arr_children_groq hfp⟩

/-- C10 amended: for openai, mistral and anthropic, an object field's
property entry is wholly replaced by the nested model's rendered schema
sub-document in both flavors, so the field's own description, enum and
optional widening never appear; for groq the property keeps the field's
own base document (type/description/enum, json_schema.py:169-174 and
291-296 have no groq branch); in all cases the field's presence in the
required list is determined by the per-provider optionality rule alone. -/
theorem C10_amended :
    (∀ (provider : String) (m : SchemaModel) (n : String) (f : Field) (c : SchemaModel)
      (doc : Json),
      (provider = "openai" ∨ provider = "mistral" ∨ provider = "anthropic") →
      ((m.fields).map Prod.fst).Nodup → (n, f) ∈ m.fields →
      f.field_type = "object" → f.children = some c →
      generate_structured_output provider m = .ok doc →
      ∃ nested sub, generate_structured_output provider c = .ok nested
        ∧ jpath nested (soSchemaPath provider) = some sub
        ∧ jpath doc (soSchemaPath provider ++ ["properties", n]) = some sub)
    ∧ (∀ (provider : String) (m : SchemaModel) (n : String) (f : Field) (c : SchemaModel)
      (doc : Json),
      (provider = "openai" ∨ provider = "mistral" ∨ provider = "anthropic") →
      ((m.fields).map Prod.fst).Nodup → (n, f) ∈ m.fields →
      f.field_type = "object" → f.children = some c →
      generate_function_tool provider m = .ok doc →
      ∃ nested sub, generate_function_tool provider c = .ok nested
        ∧ jpath nested (fcParamsPath provider) = some sub
        ∧ jpath doc (fcParamsPath provider ++ ["properties", n]) = some sub)
    ∧ (∀ (m : SchemaModel) (n : String) (f : Field) (c : SchemaModel) (doc : Json),
      ((m.fields).map Prod.fst).Nodup → (n, f) ∈ m.fields →
      f.field_type = "object" → f.children = some c →
      generate_structured_output "groq" m = .ok doc →
      jpath doc (soSchemaPath "groq" ++ ["properties", n])
        = some (Json.obj (soBaseProps "groq" n f.description (soTFinal "groq" f) f.enum)))
    ∧ (∀ (m : SchemaModel) (n : String) (f : Field) (c : SchemaModel) (doc : Json),
      ((m.fields).map Prod.fst).Nodup → (n, f) ∈ m.fields →
      f.field_type = "object" → f.children = some c →
      generate_function_tool "groq" m = .ok doc →
      jpath doc (fcParamsPath "groq" ++ ["properties", n])
        = some (Json.obj (fcBaseProps f.description (fcTFinal f) f.enum)))
    ∧ (∀ (provider : String) (m : SchemaModel) (n : String) (f : Field) (doc : Json),
      (provider = "openai" ∨ provider = "anthropic" ∨ provider = "mistral"
        ∨ provider = "groq") →
      ((m.fields).map Prod.fst).Nodup → (n, f) ∈ m.fields →
      generate_structured_output provider m = .ok doc →
      ∃ req, jpath doc (soSchemaPath provider ++ ["required"]) = some (Json.arr req)
        ∧ (Json.str n ∈ req ↔ soRequired provider f = true))
    ∧ (∀ (provider : String) (m : SchemaModel) (n : String) (f : Field) (doc : Json),
      (provider = "openai" ∨ provider = "anthropic" ∨ provider = "mistral"
        ∨ provider = "groq") →
      ((m.fields).map Prod.fst).Nodup → (n, f) ∈ m.fields →
      generate_function_tool provider m = .ok doc →
      ∃ req, jpath doc (fcParamsPath provider ++ ["required"]) = some (Json.arr req)
        ∧ (Json.str n ∈ req ↔ (!f.optional) = true)) := by
  refine ⟨?_, ?_, ?_, ?_, ?_, ?_⟩
  · intro provider m n f c doc hp3 hnd hmem hft hch h
    have hp : provider = "openai" ∨ provider = "anthropic" ∨ provider = "mistral"
        ∨ provider = "groq" := by
      rcases hp3 with rfl | rfl | rfl <;> simp
    obtain ⟨j, hfp, hprop, hreq, hmemiff⟩ := so_prop_access hp hnd hmem h
    obtain ⟨d, ft, opt, en, ch, at_⟩ := f
    simp only [Field.field_type] at hft
    simp only [Field.children] at hch
    subst hft
    subst hch
    obtain ⟨nested, hgc, hsub⟩ := soFieldProp_obj_sub hp3 hfp
    exact ⟨nested, j, hgc, hsub, hprop⟩
  · intro provider m n f c doc hp3 hnd hmem hft hch h
    have hp : provider = "openai" ∨ provider = "anthropic" ∨ provider = "mistral"
        ∨ provider = "groq" := by
      rcases hp3 with rfl | rfl | rfl <;> simp
    obtain ⟨j, hfp, hprop, hreq, hmemiff⟩ := fc_prop_access hp hnd hmem h
    obtain ⟨d, ft, opt, en, ch, at_⟩ := f
    simp only [Field.field_type] at hft
    simp only [Field.children] at hch
    subst hft
    subst hch
    obtain ⟨nested, hgc, hsub⟩ := fcFieldProp_obj_sub hp3 hfp
    exact ⟨nested, j, hgc, hsub, hprop⟩
  · intro m n f c doc hnd hmem hft hch h
    obtain ⟨j, hfp, hprop, hreq, hmemiff⟩ := so_prop_access (by simp) hnd hmem h
    obtain ⟨d, ft, opt, en, ch, at_⟩ := f
    simp only [Field.field_type] at hft
    simp only [Field.children] at hch
    subst hft
    subst hch
    rw [soFieldProp_obj_groq hfp] at hprop
    simpa [Field.description, Field.enum] using hprop
  · intro m n f c doc hnd hmem hft hch h
    obtain ⟨j, hfp, hprop, hreq, hmemiff⟩ := fc_prop_access (by simp) hnd hmem h
    obtain ⟨d, ft, opt, en, ch, at_⟩ := f
    simp only [Field.field_type] at hft
    simp only [Field.children] at hch
    subst hft
    subst hch
    rw [fcFieldProp_obj_groq hfp] at hprop
    simpa [Field.description, Field.enum] using hprop
  · intro provider m n f doc hp hnd hmem h
    obtain ⟨j, hfp, hprop, hreq, hmemiff⟩ := so_prop_access hp hnd hmem h
    exact ⟨(soReq provider m.fields).map Json.str, hreq, hmemiff⟩
  · intro provider m n f doc hp hnd hmem h
    obtain ⟨j, hfp, hprop, hreq, hmemiff⟩ := fc_prop_access hp hnd hmem h
    exact ⟨(fcReq m.fields).map Json.str, hreq, hmemiff⟩


/-- C7 amended: in the output flavor, openai places properties and the
required list under `json_schema.schema`, while groq — contrary to the
original claim — uses a tool-style envelope with `function.parameters`
and no `json_schema` key at all (json_schema.py:87-100); in the tool
flavor both openai and groq place them under `function.parameters`. -/
theorem C7_amended (m : SchemaModel) :
    (∀ doc, generate_structured_output "openai" m = .ok doc →
      ∃ props req, jpath doc ["json_schema", "schema", "properties"] = some (Json.obj props)
        ∧ jpath doc ["json_schema", "schema", "required"] = some (Json.arr req))
    ∧ (∀ doc, generate_structured_output "groq" m = .ok doc →
      jpath doc ["json_schema"] = none
      ∧ ∃ props req, jpath doc ["function", "parameters", "properties"] = some (Json.obj props)
        ∧ jpath doc ["function", "parameters", "required"] = some (Json.arr req))
    ∧ (∀ doc, generate_function_tool "openai" m = .ok doc →
      ∃ props req, jpath doc ["function", "parameters", "properties"] = some (Json.obj props)
        ∧ jpath doc ["function", "parameters", "required"] = some (Json.arr req))
    ∧ (∀ doc, generate_function_tool "groq" m = .ok doc →
      ∃ props req, jpath doc ["function", "parameters", "properties"] = some (Json.obj props)
        ∧ jpath doc ["function", "parameters", "required"] = some (Json.arr req)) := by
  refine ⟨?_, ?_, ?_, ?_⟩
  · intro doc h
    obtain ⟨props, hps, rfl⟩ := gen_so_ok (by simp) h
    exact ⟨props, (soReq "openai" m.fields).map Json.str,
      by simp [soWrap, soInner, jpath, Json.get?, List.find?],
      by simp [soWrap, soInner, jpath, Json.get?, List.find?]⟩
  · intro doc h
    obtain ⟨props, hps, rfl⟩ := gen_so_ok (by simp) h
    refine ⟨by simp [soWrap, jpath, Json.get?, List.find?],
      props, (soReq "groq" m.fields).map Json.str,
      by simp [soWrap, soInner, jpath, Json.get?, List.find?],
      by simp [soWrap, soInner, jpath, Json.get?, List.find?]⟩
  · intro doc h
    obtain ⟨props, hps, rfl⟩ := gen_fc_ok (by simp) h
    exact ⟨props, (fcReq m.fields).map Json.str,
      by simp [fcWrap, fcInner, jpath, Json.get?, List.find?],
      by simp [fcWrap, fcInner, jpath, Json.get?, List.find?]⟩
  · intro doc h
    obtain ⟨props, hps, rfl⟩ := gen_fc_ok (by simp) h
    exact ⟨props, (fcReq m.fields).map Json.str,
      by simp [fcWrap, fcInner, jpath, Json.get?, List.find?],
      by simp [fcWrap, fcInner, jpath, Json.get?, List.find?]⟩

/-- C8 amended: in the tool flavor only openai sets
`additionalProperties: false` (json_schema.py:206); anthropic, mistral
AND groq all omit the entry — contrary to the original claim that only
anthropic omits it. -/
theorem C8_amended (m : SchemaModel) :
    (∀ doc, generate_function_tool "openai" m = .ok doc →
      jpath doc ["function", "parameters", "additionalProperties"] = some (Json.bool false))
    ∧ (∀ (provider : String) (doc : Json),
      (provider = "anthropic" ∨ provider = "mistral" ∨ provider = "groq") →
      generate_function_tool provider m = .ok doc →
      jpath doc (fcParamsPath provider ++ ["additionalProperties"]) = none) := by
  constructor
  · intro doc h
    obtain ⟨props, hps, rfl⟩ := gen_fc_ok (by simp) h
    simp [fcWrap, fcInner, jpath, Json.get?, List.find?]
  · intro provider doc hp h
    rcases hp with rfl | rfl | rfl
    · obtain ⟨props, hps, rfl⟩ := gen_fc_ok (by simp) h
      simp [fcWrap, fcInner, fcParamsPath, jpath, Json.get?, List.find?]
    · obtain ⟨props, hps, rfl⟩ := gen_fc_ok (by simp) h
      simp [fcWrap, fcInner, fcParamsPath, jpath, Json.get?, List.find?]
    · obtain ⟨props, hps, rfl⟩ := gen_fc_ok (by simp) h
      simp [fcWrap, fcInner, fcParamsPath, jpath, Json.get?, List.find?]


/-- C1 amended, witnessed at `exToolOpt` rendered for openai. -/
theorem C1_amended_witness :
    ∃ prop, jpath exToolOptDoc (fcParamsPath "openai" ++ ["properties", "note"]) = some prop
      ∧ prop.get? "type" = some (Json.arr [Json.str "string", Json.str "null"]) :=
  (C1_amended "openai" exToolOpt "note" noteField exToolOptDoc
    (Or.inl rfl) (by decide) (by simp [exToolOpt, SchemaModel.fields]) rfl
    (by decide) (by rfl)).2

/-- C2 amended, witnessed at `exToolOpt` rendered for openai in the output
flavor. -/
theorem C2_amended_witness :
    ∃ prop, jpath exNoteSODoc (soSchemaPath "openai" ++ ["properties", "note"]) = some prop
      ∧ prop.get? "type" = some (Json.arr [Json.str "string", Json.str "null"]) :=
  ((C2_amended "openai" exToolOpt "note" noteField exNoteSODoc
    (by decide) (by simp [exToolOpt, SchemaModel.fields]) rfl
    (by decide) (by rfl)).1 (Or.inl rfl)).1

/-- C6 amended, witnessed at `exListModel` rendered for openai. -/
theorem C6_amended_witness :
    ∃ prop nested sub,
      jpath exListSODoc (soSchemaPath "openai" ++ ["properties", "xs"]) = some prop
      ∧ generate_structured_output "openai" exAddress = .ok nested
      ∧ jpath nested (soSchemaPath "openai") = some sub
      ∧ prop.get? "items" = some sub :=
  C6_amended.1 "openai" exListModel "xs" itemsField exAddress exListSODoc
    (Or.inl rfl) (by decide) (by simp [exListModel, SchemaModel.fields]) rfl rfl (by rfl)

/-- C7 amended, witnessed at `exEmpty` rendered for groq. -/
theorem C7_amended_witness : jpath exEmptyGroqDoc ["json_schema"] = none :=
  ((C7_amended exEmpty).2.1 exEmptyGroqDoc (by rfl)).1

/-- C8 amended, witnessed at `exToolOpt` rendered for mistral. -/
theorem C8_amended_witness :
    jpath exToolMistralDoc (fcParamsPath "mistral" ++ ["additionalProperties"]) = none :=
  (C8_amended exToolOpt).2 "mistral" exToolMistralDoc (Or.inr (Or.inl rfl)) (by rfl)

/-- C10 amended, witnessed at `exHolder` rendered for openai. -/
theorem C10_amended_witness :
    ∃ nested sub, generate_structured_output "openai" exAddress = .ok nested
      ∧ jpath nested (soSchemaPath "openai") = some sub
      ∧ jpath exHolderSODoc (soSchemaPath "openai" ++ ["properties", "child"]) = some sub :=
  C10_amended.1 "openai" exHolder "child" childField exAddress exHolderSODoc
    (Or.inl rfl) (by decide) (by simp [exHolder, SchemaModel.fields]) rfl rfl (by rfl)

end PdmInfra
